import Mathlib

/-!
# Payment & Ledger Reconciliation Engine — verification development

Shallow embedding of the payment/ledger core of the backend
(`src/modules/payments/payments.service.ts`).  The service file contains two
revisions of `PaymentsService`; the second (larger) revision is the one the
other operations come from, the first revision contributes the webhook
signature-verification prologue (`handleWebhookV1` below).

Modelling conventions:
* money amounts are `Rat` (TZS etc.), coin amounts are `Int`
  (`Math.floor`/`Math.ceil` results);
* the database tables are lists inside `LedgerState`; an insert conses the
  new row, an update maps over the list;
* JavaScript `a || b` on numbers treats `0` as falsy (`jsNum`); on ids and
  statuses we use `Option` and ignore the empty-string corner, which the
  service never produces;
* timestamps are epoch milliseconds (`Int`);
* notification/email/firestore side effects sit outside the ledger and are
  not part of the state;
* the gateway and the JSON parser are oracles passed in as functions.
-/

deriving instance DecidableEq for Except

namespace Payments

/-- `metadata` object carried by intents and webhook payloads; only the
fields the service reads (`user_id`, `kind`, `order_id`). -/
structure Meta where
  userId  : Option String
  kind    : Option String
  orderId : Option String
deriving DecidableEq, Repr

def emptyMeta : Meta := { userId := none, kind := none, orderId := none }

/-- Normalized webhook/gateway JSON payload.  `amountVal` models
`amount?.value ?? amount` (the gateway sends either a bare number or a
`{value, currency}` object). -/
structure Payload where
  reference : Option String
  status    : Option String
  amountVal : Option Rat
  userId    : Option String
  metadata  : Option Meta
deriving DecidableEq, Repr

/-- Row of `payment_intents`. -/
structure PaymentIntent where
  reference : String
  userId    : Option String
  status    : String
  amount    : Rat
  metadata  : Meta
  createdAt : Int
deriving DecidableEq, Repr

/-- Row of `coin_transactions`. -/
structure CoinTx where
  userId    : String
  amount    : Int
  txType    : String
  txStatus  : String
  reference : Option String
deriving DecidableEq, Repr

/-- Row of `shop_transactions`. -/
structure ShopTx where
  shopId    : String
  orderId   : Option String
  amount    : Rat
  txType    : String
  txStatus  : String
  reference : Option String
deriving DecidableEq, Repr

/-- Row of `orders` (owned by the commerce module, consumed here). -/
structure Order where
  id           : String
  shopId       : String
  buyerId      : String
  totalAmount  : Rat
  status       : String
  paymentIssue : Bool
deriving DecidableEq, Repr

/-- Row of `shops`. -/
structure Shop where
  id     : String
  userId : Option String
deriving DecidableEq, Repr

/-- Row of `withdrawal_requests` (user/live payouts; `amount` is the debited
coin amount). -/
structure WithdrawalRequest where
  userId    : String
  amount    : Int
  status    : String
  reference : Option String
deriving DecidableEq, Repr

/-- Row of `withdrawals` (shop payouts). -/
structure ShopWithdrawal where
  shopId    : String
  userId    : String
  amount    : Rat
  status    : String
  reference : Option String
deriving DecidableEq, Repr

/-- Row of `user_payout_methods` / `shop_payout_methods`. -/
structure PayoutMethod where
  phone    : Option String
  fullName : Option String
deriving DecidableEq, Repr

/-- The ledger store: all tables the engine reads or writes. -/
structure LedgerState where
  intents           : List PaymentIntent
  coinTxs           : List CoinTx
  coinWallets       : List (String × Int)
  shopTxs           : List ShopTx
  shopWallets       : List (String × Rat)
  withdrawalReqs    : List WithdrawalRequest
  shopWithdrawals   : List ShopWithdrawal
  orders            : List Order
  shops             : List Shop
  userPayoutMethods : List (String × PayoutMethod)
  shopPayoutMethods : List (String × PayoutMethod)
deriving DecidableEq, Repr

/-! ## Wallet table primitives -/

/-- Read an entry of a keyed table, with a default for a missing key. -/
def getEntry {V : Type} (w : List (String × V)) (u : String) (v0 : V) : V :=
  match w with
  | [] => v0
  | (k, v) :: rest => if k = u then v else getEntry rest u v0

/-- Add `amt` to the entry at key `u`, creating it if absent (upsert). -/
def incEntry {V : Type} [Add V] (u : String) (amt : V) :
    List (String × V) → List (String × V)
  | [] => [(u, amt)]
  | (k, v) :: rest =>
    if k = u then (k, v + amt) :: rest else (k, v) :: incEntry u amt rest

/-- Modelled from the spec: the Ledger Store's atomic `increment_coin_balance`
database RPC (its SQL is not under `src/`). Atomically adds `amt` to the
user's coin wallet, creating the wallet if absent, and returns the new
balance. -/
def increment_coin_balance (u : String) (amt : Int) (w : List (String × Int)) :
    Int × List (String × Int) :=
  let w2 := incEntry u amt w
  (getEntry w2 u 0, w2)

/-- Modelled from the spec: the Ledger Store's atomic `decrement_coin_balance`
database RPC (its SQL is not under `src/`). Raises `insufficient_balance`
(returned as `none`) when the wallet balance is below `amt`; otherwise
atomically subtracts and returns the new balance. -/
def decrement_coin_balance (u : String) (amt : Int) (w : List (String × Int)) :
    Option (Int × List (String × Int)) :=
  if getEntry w u 0 < amt then none
  else
    let w2 := incEntry u (-amt) w
    some (getEntry w2 u 0, w2)

/-- Modelled from the spec: the Ledger Store's atomic `increment_shop_balance`
database RPC (its SQL is not under `src/`). -/
def increment_shop_balance (sid : String) (amt : Rat) (w : List (String × Rat)) :
    Rat × List (String × Rat) :=
  let w2 := incEntry sid amt w
  (getEntry w2 sid 0, w2)

/-- Modelled from the spec: the Ledger Store's atomic `decrement_shop_balance`
database RPC (its SQL is not under `src/`); `none` models the
`insufficient_balance` error. -/
def decrement_shop_balance (sid : String) (amt : Rat) (w : List (String × Rat)) :
    Option (Rat × List (String × Rat)) :=
  if getEntry w sid 0 < amt then none
  else
    let w2 := incEntry sid (-amt) w
    some (getEntry w2 sid 0, w2)

/-! ## Observers -/

def coinBalance (s : LedgerState) (u : String) : Int := getEntry s.coinWallets u 0

def shopBalance (s : LedgerState) (sid : String) : Rat := getEntry s.shopWallets sid 0

/-- All `coin_transactions` rows for a reference with a given type. -/
def coinTxsFor (s : LedgerState) (r : String) (ty : String) : List CoinTx :=
  s.coinTxs.filter (fun t => t.reference == some r && t.txType == ty)

def depositTxsFor (s : LedgerState) (r : String) : List CoinTx := coinTxsFor s r "deposit"

def adjustmentTxsFor (s : LedgerState) (r : String) : List CoinTx := coinTxsFor s r "adjustment"

/-- All `shop_transactions` rows for a reference with a given type. -/
def shopTxsFor (s : LedgerState) (r : String) (ty : String) : List ShopTx :=
  s.shopTxs.filter (fun t => t.reference == some r && t.txType == ty)

def saleTxsFor (s : LedgerState) (r : String) : List ShopTx := shopTxsFor s r "sale"

/-- Signed sum of a user's coin transactions. -/
def coinTxSum (s : LedgerState) (u : String) : Int :=
  ((s.coinTxs.filter (fun t => t.userId == u)).map (fun t => t.amount)).sum

/-- Signed sum of a shop's shop transactions. -/
def shopTxSum (s : LedgerState) (sid : String) : Rat :=
  ((s.shopTxs.filter (fun t => t.shopId == sid)).map (fun t => t.amount)).sum

/-- The wallet/ledger invariant for the coin side: the stored balance equals
the signed sum of the transaction log. -/
def coinInvariant (s : LedgerState) : Prop :=
  ∀ u, coinBalance s u = coinTxSum s u

/-- The wallet/ledger invariant for the shop side. -/
def shopInvariant (s : LedgerState) : Prop :=
  ∀ sid, shopBalance s sid = shopTxSum s sid

/-! ## JS helpers -/

/-- `String.toLowerCase()` modelled structurally (Lean's own `String.toLower`
is defined by well-founded recursion and does not reduce in the kernel). -/
def lowerStr (s : String) : String := ⟨s.data.map Char.toLower⟩

/-- `s.startsWith(p)` modelled structurally, for the same reason. -/
def strStartsWith (s p : String) : Bool := p.data.isPrefixOf s.data

/-- JavaScript `a || b` on numbers: `0` (and a missing value) falls through. -/
def jsNum (a : Option Rat) (b : Rat) : Rat :=
  match a with
  | some x => if x = 0 then b else x
  | none => b

/-- `payment_intents` lookup by reference (`maybeSingle`). -/
def findIntent (s : LedgerState) (r : String) : Option PaymentIntent :=
  s.intents.find? (fun i => i.reference == r)

/-! ## Settlement Processor (`handleCompletedPayment`, second revision) -/

/-- The intent view `handleCompletedPayment` works on: the stored row if
present, otherwise reconstructed from the webhook payload (`finalIntent` in
the source). -/
structure FinalIntent where
  userId   : Option String
  amount   : Rat
  metadata : Meta
deriving DecidableEq, Repr

def finalIntentFor (intent : Option PaymentIntent) (p : Payload) : FinalIntent :=
  match intent with
  | some i => { userId := i.userId, amount := i.amount, metadata := i.metadata }
  | none =>
    { userId := p.userId
      amount := p.amountVal.getD 0
      metadata := p.metadata.getD emptyMeta }

/-- `metadata.user_id || finalIntent.user_id || payload.user_id`. -/
def effUser (fi : FinalIntent) (p : Payload) : Option String :=
  fi.metadata.userId <|> fi.userId <|> p.userId

/-- `if (metadata.order_id) update orders set status='processing',
payment_issue=false where id = metadata.order_id`. -/
def orderPaidStep (md : Meta) (s : LedgerState) : LedgerState :=
  match md.orderId with
  | none => s
  | some oid =>
    { s with orders := s.orders.map (fun o =>
        if o.id = oid then { o with status := "processing", paymentIssue := false } else o) }

/-- The decision part of `creditShopWalletForOrder`: returns the
`(shopId, orderId, amount)` to credit, or `none` when the credit is skipped
(idempotency gate hit, order missing, non-positive amount, shop missing).
The gate checks for ANY `shop_transactions` row with this reference (the
query has no type filter). -/
def shopCreditDecision (orderId : Option String) (reference : String)
    (fallbackAmount : Rat) (shopTxs : List ShopTx) (orders : List Order)
    (shops : List Shop) : Option (String × String × Rat) :=
  match orderId with
  | none => none
  | some oid =>
    if (shopTxs.find? (fun t => t.reference == some reference)).isSome then none
    else
      match orders.find? (fun o => o.id == oid) with
      | none => none
      | some order =>
        let amount := jsNum (some order.totalAmount) (jsNum (some fallbackAmount) 0)
        if amount ≤ 0 then none
        else
          match shops.find? (fun sh => sh.id == order.shopId) with
          | none => none
          | some shop =>
            if shop.userId = none then none
            else some (shop.id, order.id, amount)

/-- `creditShopWalletForOrder` (ledger part; sold counters, notifications and
emails are side effects outside the modelled state). -/
def creditShopWalletForOrder (orderId : Option String) (reference : String)
    (fallbackAmount : Rat) (s : LedgerState) : LedgerState :=
  match shopCreditDecision orderId reference fallbackAmount s.shopTxs s.orders s.shops with
  | none => s
  | some (shopId, oid, amount) =>
    { s with
      shopWallets := (increment_shop_balance shopId amount s.shopWallets).2
      shopTxs :=
        { shopId := shopId, orderId := some oid, amount := amount, txType := "sale"
          txStatus := "completed", reference := some reference } :: s.shopTxs }

/-- `payload.amount?.value || payload.amount || finalIntent.amount || 0`. -/
def settleAmount (p : Payload) (fi : FinalIntent) : Rat :=
  jsNum p.amountVal (jsNum (some fi.amount) 0)

/-- The `coin_topup` branch of `handleCompletedPayment`: idempotency gate on
an existing `(reference, deposit)` row; otherwise credit
`floor(paymentAmount * coinRate)` coins and insert the deposit row. -/
def coinTopupStep (rate : Rat) (reference : String) (p : Payload)
    (fi : FinalIntent) (u : String) (s : LedgerState) : LedgerState :=
  if (s.coinTxs.find? (fun t => t.reference == some reference && t.txType == "deposit")).isSome
  then s
  else
    let coins : Int := ⌊settleAmount p fi * rate⌋
    { s with
      coinWallets := (increment_coin_balance u coins s.coinWallets).2
      coinTxs :=
        { userId := u, amount := coins, txType := "deposit", txStatus := "completed"
          reference := some reference } :: s.coinTxs }

/-- The body of `handleCompletedPayment` once the intent view and the user
id are resolved: advance the order, run the shop credit when the intent
targets a shop order, run the coin credit for a `coin_topup`. -/
def settleCore (rate : Rat) (reference : String) (p : Payload) (fi : FinalIntent)
    (u : String) (s : LedgerState) : LedgerState :=
  let md := fi.metadata
  let s1 := orderPaidStep md s
  let s2 :=
    if md.kind == some "shop_order" || md.orderId.isSome then
      creditShopWalletForOrder md.orderId reference
        (jsNum (some fi.amount) (jsNum p.amountVal 0)) s1
    else s1
  if md.kind == some "coin_topup" then coinTopupStep rate reference p fi u s2 else s2

/-- `handleCompletedPayment(reference, payload)` — the Settlement Processor
(second revision).  Loads the stored intent (falling back to the payload)
and bails out without a user id; `settleCore` does the rest.  The unused
binder `u` is the resolved user id threaded into the coin branch. -/
def handleCompletedPayment (rate : Rat) (reference : String) (p : Payload)
    (s : LedgerState) : LedgerState :=
  let fi := finalIntentFor (findIntent s reference) p
  match effUser fi p with
  | none => s
  | some u => settleCore rate reference p fi u s

/-! ## Reversal Handler (`handleReversedPayment`) -/

/-- The coin branch of `handleReversedPayment`: gated by an existing
`(reference, adjustment)` row; otherwise decrement
`floor(paymentAmount * coinRate)` coins (the RPC error is ignored by the
source, so an insufficient balance leaves the wallet untouched) and insert
the negative adjustment row regardless. -/
def reversalCoinStep (rate : Rat) (reference : String) (intent : PaymentIntent)
    (p : Payload) (s : LedgerState) : LedgerState :=
  let md := intent.metadata
  let userId := md.userId <|> intent.userId <|> p.userId
  let paymentAmount := jsNum p.amountVal (jsNum (some intent.amount) 0)
  match userId with
  | none => s
  | some u =>
    if md.kind == some "coin_topup" then
      if (s.coinTxs.find? (fun t => t.reference == some reference && t.txType == "adjustment")).isSome
      then s
      else
        let coins : Int := ⌊paymentAmount * rate⌋
        let wallets :=
          match decrement_coin_balance u coins s.coinWallets with
          | some (_, w) => w
          | none => s.coinWallets
        { s with
          coinWallets := wallets
          coinTxs :=
            { userId := u, amount := -|coins|, txType := "adjustment"
              txStatus := "completed", reference := some reference } :: s.coinTxs }
    else s

/-- The order branch of `handleReversedPayment`: flag the order's
`payment_issue`, and (gated by an existing `(reference, refund)` row)
decrement the shop balance and insert the negative refund row.  The source
wraps the decrement in a try/catch, but the store client reports errors by
return value rather than by throwing, so the catch arm (a `failed` refund
row) is unreachable and the error is effectively ignored. -/
def reversalOrderStep (reference : String) (intent : PaymentIntent) (p : Payload)
    (s : LedgerState) : LedgerState :=
  let md := intent.metadata
  let paymentAmount := jsNum p.amountVal (jsNum (some intent.amount) 0)
  match md.orderId with
  | none => s
  | some oid =>
    let s2 : LedgerState := { s with orders := s.orders.map (fun o =>
        if o.id = oid then { o with paymentIssue := true } else o) }
    match s2.orders.find? (fun o => o.id == oid) with
    | none => s2
    | some order =>
      if (s2.shopTxs.find? (fun t => t.reference == some reference && t.txType == "refund")).isSome
      then s2
      else
        let refundAmount := jsNum (some order.totalAmount) (jsNum (some paymentAmount) 0)
        let wallets :=
          match decrement_shop_balance order.shopId refundAmount s2.shopWallets with
          | some (_, w) => w
          | none => s2.shopWallets
        { s2 with
          shopWallets := wallets
          shopTxs :=
            { shopId := order.shopId, orderId := some order.id, amount := -|refundAmount|
              txType := "refund", txStatus := "completed"
              reference := some reference } :: s2.shopTxs }

/-- `handleReversedPayment(reference, intent, payload)` — the Reversal
Handler (buyer/seller notifications are outside the modelled ledger). -/
def handleReversedPayment (rate : Rat) (reference : String)
    (intent : PaymentIntent) (p : Payload) (s : LedgerState) : LedgerState :=
  reversalOrderStep reference intent p (reversalCoinStep rate reference intent p s)

/-! ## Payout status sync (`syncPayoutStatusInDb`, `handlePayoutWebhook`) -/

/-- `syncPayoutStatusInDb(reference, payoutStatus)`: update the shop and/or
user payout row with this reference; on `failed`, restore the debited
balance (shop: bare balance increment; user: balance increment plus a
positive `adjustment` transaction).  The source performs the restore
unconditionally — it selects the row's current status but never checks
it.  Split into the shop half and the user half of the function body. -/
def syncShopPayoutStep (reference : String) (payoutStatus : String)
    (s : LedgerState) : LedgerState :=
  match s.shopWithdrawals.find? (fun w => w.reference == some reference) with
  | none => s
  | some sw =>
    let sA : LedgerState := { s with
      shopWithdrawals := s.shopWithdrawals.map (fun (w : ShopWithdrawal) =>
        if w.reference == some reference then { w with status := payoutStatus } else w) }
    if payoutStatus = "failed" then
      { sA with shopWallets := (increment_shop_balance sw.shopId sw.amount sA.shopWallets).2 }
    else sA

def syncUserPayoutStep (reference : String) (payoutStatus : String)
    (s1 : LedgerState) : LedgerState :=
  match s1.withdrawalReqs.find? (fun w => w.reference == some reference) with
  | none => s1
  | some wr =>
    let sA : LedgerState := { s1 with
      withdrawalReqs := s1.withdrawalReqs.map (fun (w : WithdrawalRequest) =>
        if w.reference == some reference then { w with status := payoutStatus } else w) }
    let sB : LedgerState := { sA with
      coinTxs := sA.coinTxs.map (fun (t : CoinTx) =>
        if t.reference == some reference && t.txType == "withdraw"
        then { t with txStatus := payoutStatus } else t) }
    if payoutStatus = "failed" ∧ wr.amount ≠ 0 then
      { sB with
        coinWallets := (increment_coin_balance wr.userId wr.amount sB.coinWallets).2
        coinTxs :=
          { userId := wr.userId, amount := |wr.amount|, txType := "adjustment"
            txStatus := "completed", reference := some reference } :: sB.coinTxs }
    else sB

def syncPayoutStatusInDb (reference : String) (payoutStatus : String)
    (s : LedgerState) : LedgerState :=
  syncUserPayoutStep reference payoutStatus (syncShopPayoutStep reference payoutStatus s)

/-- Normalization of a payout webhook's event type and body status into the
final payout status, then `syncPayoutStatusInDb`. -/
def handlePayoutWebhook (reference : String) (eventType : Option String)
    (wd : Payload) (s : LedgerState) : LedgerState :=
  let ev := lowerStr (eventType.getD "")
  let bodyStatus := lowerStr (wd.status.getD "")
  let payoutStatus :=
    if ev = "payout.completed" ∨ ev = "transfer.completed" ∨
       bodyStatus = "completed" ∨ bodyStatus = "success" then "completed"
    else if ev = "payout.failed" ∨ ev = "payout.reversed" ∨ ev = "transfer.failed" ∨
            bodyStatus = "failed" ∨ bodyStatus = "reversed" then "failed"
    else if bodyStatus = "" then "pending" else bodyStatus
  syncPayoutStatusInDb reference payoutStatus s

/-! ## Webhook Ingestor, second revision (`handleWebhook`) -/

/-- Webhook body after JSON parsing; `payload` models `body.data ?? body`
(the gateway sends either a typed envelope or a bare payload). -/
structure WebhookBody where
  btype   : Option String
  payload : Payload
deriving DecidableEq, Repr

inductive WebhookResult
  | ok (eventType : Option String) (reference : String) (status : String)
  | missingReference
deriving DecidableEq, Repr

/-- `{ ...webhookData, ...updatedIntent }`: every payload field the handler
reads is overridden by the freshly updated intent row. -/
def mergePayloadIntent (ui : PaymentIntent) : Payload :=
  { reference := some ui.reference, status := some ui.status
    amountVal := some ui.amount, userId := ui.userId, metadata := some ui.metadata }

/-- `handleWebhook(rawBody, headers)` — second revision (no signature
verification).  Normalizes `{eventType, reference, status}`, updates the
intent status unconditionally, then dispatches to the payout sync, the
Settlement Processor, or (for a previously completed intent) the Reversal
Handler. -/
def handleWebhook (rate : Rat) (body : WebhookBody) (headerEvent : Option String)
    (s : LedgerState) : WebhookResult × LedgerState :=
  let eventType := body.btype <|> headerEvent
  let wd := body.payload
  let status :=
    match wd.status with
    | some st => st
    | none =>
      if eventType = some "payment.completed" then "completed"
      else if eventType = some "payment.failed" then "failed"
      else "unknown"
  match wd.reference with
  | none => (.missingReference, s)
  | some reference =>
    let existingIntent := findIntent s reference
    let s1 : LedgerState := { s with intents := s.intents.map (fun i =>
        if i.reference = reference then { i with status := status } else i) }
    let evLower := lowerStr (eventType.getD "")
    if strStartsWith evLower "payout." ∨ evLower = "transfer.completed" ∨
       evLower = "transfer.failed" then
      (.ok eventType reference status, handlePayoutWebhook reference eventType wd s1)
    else if eventType = some "payment.completed" ∨ status = "completed" then
      match findIntent s1 reference with
      | some ui =>
        (.ok eventType reference status,
         handleCompletedPayment rate reference (mergePayloadIntent ui) s1)
      | none =>
        (.ok eventType reference status, handleCompletedPayment rate reference wd s1)
    else if eventType = some "payment.failed" ∨ eventType = some "payment.reversed" ∨
            status = "failed" ∨ status = "reversed" then
      match existingIntent with
      | some ei =>
        if ei.status = "completed" then
          (.ok eventType reference status, handleReversedPayment rate reference ei wd s1)
        else (.ok eventType reference status, s1)
      | none => (.ok eventType reference status, s1)
    else (.ok eventType reference status, s1)

/-! ## Webhook Ingestor, first revision (`handleWebhook` with HMAC check) -/

inductive WebhookError
  | invalidSignature
  | parseError
  | missingReference
  | intentNotFound
deriving DecidableEq, Repr

/-- `handleCompletedPayment` of the first revision: throws when the stored
intent is missing, prefers the payload's metadata and the intent's amount,
advances the order to `paid`, and runs the gated coin credit. -/
def handleCompletedPaymentV1 (rate : Rat) (reference : String) (p : Payload)
    (s : LedgerState) : Except WebhookError Unit × LedgerState :=
  match findIntent s reference with
  | none => (.error .intentNotFound, s)
  | some intent =>
    let md := p.metadata.getD intent.metadata
    match md.userId <|> intent.userId with
    | none => (.ok (), s)
    | some u =>
      let s1 : LedgerState :=
        match md.orderId with
        | none => s
        | some oid =>
          { s with orders := s.orders.map (fun o =>
              if o.id = oid then { o with status := "paid" } else o) }
      if md.kind == some "coin_topup" then
        if (s1.coinTxs.find? (fun t => t.reference == some reference && t.txType == "deposit")).isSome
        then (.ok (), s1)
        else
          let paymentAmount := jsNum (some intent.amount) (jsNum p.amountVal 0)
          let coins : Int := ⌊paymentAmount * rate⌋
          (.ok (),
           { s1 with
             coinWallets := (increment_coin_balance u coins s1.coinWallets).2
             coinTxs :=
               { userId := u, amount := coins, txType := "deposit"
                 txStatus := "completed", reference := some reference } :: s1.coinTxs })
      else (.ok (), s1)

/-- `handleWebhook(rawBody, headers)` — first revision.  When a webhook
secret is configured (and is not the placeholder) AND a signature header is
present, the HMAC of the raw body is compared against the header and a
mismatch is rejected before any parsing or state change; otherwise
verification is skipped with a logged warning.  `hmac` and `parseBody`
stand for the crypto library and `JSON.parse`. -/
def handleWebhookV1 (rate : Rat) (secret : String)
    (hmac : String → String → String) (parseBody : String → Option Payload)
    (rawBody : String) (signature : Option String) (s : LedgerState) :
    Except WebhookError WebhookResult × LedgerState :=
  if secret ≠ "" ∧ secret ≠ "YOUR_WEBHOOK_SECRET" ∧ signature.isSome ∧
     hmac secret rawBody ≠ signature.getD "" then
    (.error .invalidSignature, s)
  else
    match parseBody rawBody with
    | none => (.error .parseError, s)
    | some body =>
      match body.reference with
      | none => (.error .missingReference, s)
      | some reference =>
        let s1 : LedgerState := { s with intents := s.intents.map (fun i =>
            if i.reference = reference then
              { i with status := (body.status).getD i.status } else i) }
        if body.status = some "completed" then
          match handleCompletedPaymentV1 rate reference body s1 with
          | (.error e, s2) => (.error e, s2)
          | (.ok _, s2) =>
            (.ok (.ok none reference ((body.status).getD "")), s2)
        else (.ok (.ok none reference ((body.status).getD "")), s1)

/-! ## Polling reconciliation (`checkAndUpdatePaymentStatus` and friends) -/

/-- A payment object as returned by `checkPaymentStatusFromSnippe` (the
normalization there guarantees a reference and a status). -/
structure GwPayment where
  reference : String
  status    : String
  amountVal : Option Rat
  userId    : Option String
  metadata  : Option Meta
deriving DecidableEq, Repr

def GwPayment.toPayload (g : GwPayment) : Payload :=
  { reference := some g.reference, status := some g.status
    amountVal := g.amountVal, userId := g.userId, metadata := g.metadata }

inductive CheckEvent
  | pollGateway
  | reversalInvoked
deriving DecidableEq, Repr

inductive CheckResult
  | notFound
  | alreadyProcessed
  | unavailable
  | updated (status : String)
deriving DecidableEq, Repr

/-- `checkAndUpdatePaymentStatus(reference)`: skip missing intents, return
`alreadyProcessed` for completed intents without polling, otherwise poll the
gateway (`gw` oracle), write the polled status, settle a newly completed
payment, and reconcile a completed-then-reversed one. -/
def checkAndUpdatePaymentStatus (rate : Rat) (reference : String)
    (gw : String → Option GwPayment) (s : LedgerState) :
    CheckResult × LedgerState × List CheckEvent :=
  match findIntent s reference with
  | none => (.notFound, s, [])
  | some intent =>
    if intent.status = "completed" then (.alreadyProcessed, s, [])
    else
      match gw reference with
      | none => (.unavailable, s, [.pollGateway])
      | some gp =>
        let newStatus := gp.status
        let s1 : LedgerState := { s with intents := s.intents.map (fun i =>
            if i.reference = reference then { i with status := newStatus } else i) }
        let s2 :=
          if newStatus = "completed" ∧ intent.status ≠ "completed" then
            handleCompletedPayment rate reference gp.toPayload s1
          else s1
        if intent.status = "completed" ∧
           newStatus ∈ (["failed", "reversed", "voided", "expired"] : List String) then
          (.updated newStatus, handleReversedPayment rate reference intent gp.toPayload s2,
           [.pollGateway, .reversalInvoked])
        else (.updated newStatus, s2, [.pollGateway])

/-- `expireStalePayments`: intents still `pending`/`processing` created more
than 24h before `now` are set to `expired`. -/
def expireStalePayments (now : Int) (s : LedgerState) : LedgerState :=
  let cutoff := now - 24 * 60 * 60 * 1000
  { s with intents := s.intents.map (fun i =>
      if (i.status = "pending" ∨ i.status = "processing") ∧ i.createdAt < cutoff
      then { i with status := "expired" } else i) }

/-- One step of `reconcileFailedPayments`: if the gateway reports the
intent `completed`, set the stored intent to `completed` and re-run
settlement. -/
def reconcileStep (rate : Rat) (gw : String → Option GwPayment)
    (acc : LedgerState) (pIntent : PaymentIntent) : LedgerState :=
  match gw pIntent.reference with
  | some gp =>
    if gp.status = "completed" then
      let acc1 : LedgerState := { acc with intents := acc.intents.map (fun i =>
          if i.reference = pIntent.reference then { i with status := "completed" } else i) }
      handleCompletedPayment rate pIntent.reference gp.toPayload acc1
    else acc
  | none => acc

/-- `reconcileFailedPayments`: for recent `failed`/`expired` intents (up to
50) whose gateway status is `completed`, set the intent to `completed` and
re-run settlement. -/
def reconcileFailedPayments (rate : Rat) (now : Int)
    (gw : String → Option GwPayment) (s : LedgerState) : LedgerState :=
  let since := now - 24 * 60 * 60 * 1000
  let failed := (s.intents.filter (fun i =>
      (i.status == "failed" || i.status == "expired") && since ≤ i.createdAt)).take 50
  failed.foldl (reconcileStep rate gw) s

/-! ## Withdrawal/payout creation -/

inductive PayEvent
  | debitSource
  | gatewayCall
deriving DecidableEq, Repr

inductive WithdrawError
  | invalidAmount
  | rateNotConfigured
  | noPayoutMethod
  | insufficientBalance
  | gatewayFailed
  | belowMinimum
  | shopNotFound
deriving DecidableEq, Repr

/-- The gateway's payout-creation response (`none` models a thrown
`postToSnippePayout` call). -/
structure GwPayout where
  reference : Option String
  status    : Option String
deriving DecidableEq, Repr

/-- `createWithdrawal(userId, dto)` — user/live payout.  Validates amount
and rate, requires a configured payout method, pessimistically debits
`ceil((amount / 0.75) * coinRate)` coins, then submits the payout and
records the `withdrawal_requests` and `coin_transactions` rows.  The event
trace records the debit and the gateway call in order. -/
def createWithdrawal (rate : Rat) (userId : String) (amount : Rat)
    (gw : Option GwPayout) (s : LedgerState) :
    Except WithdrawError Unit × LedgerState × List PayEvent :=
  if amount ≤ 0 then (.error .invalidAmount, s, [])
  else if rate ≤ 0 then (.error .rateNotConfigured, s, [])
  else
    let coinsRequired : Int := ⌈amount / (75 / 100 : Rat) * rate⌉
    let withdrawFeeAmount := amount * (3 / 100 : Rat)
    let netAmount := amount - withdrawFeeAmount
    if netAmount ≤ 0 then (.error .invalidAmount, s, [])
    else
      match (s.userPayoutMethods.find? (fun e => e.1 == userId)).map Prod.snd with
      | none => (.error .noPayoutMethod, s, [])
      | some pm =>
        if pm.phone = none ∨ pm.fullName = none then (.error .noPayoutMethod, s, [])
        else
          match decrement_coin_balance userId coinsRequired s.coinWallets with
          | none => (.error .insufficientBalance, s, [])
          | some (_, w) =>
            let sD : LedgerState := { s with coinWallets := w }
            match gw with
            | none => (.error .gatewayFailed, sD, [.debitSource, .gatewayCall])
            | some resp =>
              let st := (resp.status).getD "pending"
              (.ok (),
               { sD with
                 withdrawalReqs :=
                   { userId := userId, amount := coinsRequired, status := st
                     reference := resp.reference } :: sD.withdrawalReqs
                 coinTxs :=
                   { userId := userId, amount := -|coinsRequired|, txType := "withdraw"
                     txStatus := st, reference := resp.reference } :: sD.coinTxs },
               [.debitSource, .gatewayCall])

/-- `createShopWithdrawal(userId, dto)` — shop payout.  Checks the minimum,
the shop, the payout method and the available balance (delivered-order
revenue minus completed withdrawals), best-effort tops the wallet up to
that available balance, pessimistically debits the wallet, then submits the
payout and records the `withdrawals` row.  No `shop_transactions` row is
written. -/
def createShopWithdrawal (userId : String) (amount : Rat) (gw : Option GwPayout)
    (s : LedgerState) : Except WithdrawError Unit × LedgerState × List PayEvent :=
  if amount < 10000 then (.error .belowMinimum, s, [])
  else
    match s.shops.find? (fun sh => sh.userId == some userId) with
    | none => (.error .shopNotFound, s, [])
    | some shop =>
      let feeAmount : Int := ⌈amount * (10 / 100 : Rat)⌉
      let netAmount : Rat := amount - (feeAmount : Rat)
      if netAmount ≤ 0 then (.error .invalidAmount, s, [])
      else
        match (s.shopPayoutMethods.find? (fun e => e.1 == shop.id)).map Prod.snd with
        | none => (.error .noPayoutMethod, s, [])
        | some pm =>
          if pm.phone = none ∨ pm.fullName = none then (.error .noPayoutMethod, s, [])
          else
            let revenue := ((s.orders.filter (fun o =>
                o.shopId == shop.id && o.status == "delivered")).map
                  (fun o => o.totalAmount)).sum
            let withdrawn := ((s.shopWithdrawals.filter (fun wd =>
                wd.shopId == shop.id && wd.status == "completed")).map
                  (fun wd => wd.amount)).sum
            let availableBalance := revenue - withdrawn
            if availableBalance < amount then (.error .insufficientBalance, s, [])
            else
              let walletBalance := getEntry s.shopWallets shop.id 0
              let sSync : LedgerState :=
                if walletBalance < amount then
                  let topUp := availableBalance - walletBalance
                  if topUp > 0 then
                    { s with shopWallets := (increment_shop_balance shop.id topUp s.shopWallets).2 }
                  else s
                else s
              match decrement_shop_balance shop.id amount sSync.shopWallets with
              | none => (.error .insufficientBalance, sSync, [])
              | some (_, w) =>
                let sD : LedgerState := { sSync with shopWallets := w }
                match gw with
                | none => (.error .gatewayFailed, sD, [.debitSource, .gatewayCall])
                | some resp =>
                  let st := (resp.status).getD "pending"
                  (.ok (),
                   { sD with
                     shopWithdrawals :=
                       { shopId := shop.id, userId := userId, amount := amount
                         status := st, reference := resp.reference } :: sD.shopWithdrawals },
                   [.debitSource, .gatewayCall])

/-! ## Gift transfer (`sendGift`) -/

inductive GiftError
  | selfGift
  | insufficientBalance
deriving DecidableEq, Repr

/-- `sendGift(senderId, dto)`: atomic two-sided coin transfer — debit the
sender (rejecting on insufficient balance), credit the receiver, record the
two `gift` transaction rows. -/
def sendGift (senderId receiverId : String) (coinCost : Int) (s : LedgerState) :
    Except GiftError Unit × LedgerState :=
  if senderId = receiverId then (.error .selfGift, s)
  else
    match decrement_coin_balance senderId coinCost s.coinWallets with
    | none => (.error .insufficientBalance, s)
    | some (_, w1) =>
      let w2 := (increment_coin_balance receiverId coinCost w1).2
      (.ok (),
       { s with
         coinWallets := w2
         coinTxs :=
           { userId := receiverId, amount := |coinCost|, txType := "gift"
             txStatus := "completed", reference := none } ::
           { userId := senderId, amount := -|coinCost|, txType := "gift"
             txStatus := "completed", reference := none } :: s.coinTxs })

/-! ## Concrete fixtures (for witnesses and counterexamples) -/

def emptyState : LedgerState :=
  { intents := [], coinTxs := [], coinWallets := [], shopTxs := [], shopWallets := []
    withdrawalReqs := [], shopWithdrawals := [], orders := [], shops := []
    userPayoutMethods := [], shopPayoutMethods := [] }

def topupMeta : Meta := { userId := some "u1", kind := some "coin_topup", orderId := none }

def topupIntent : PaymentIntent :=
  { reference := "r1", userId := some "u1", status := "pending", amount := 10000
    metadata := topupMeta, createdAt := 0 }

/-- A pending 10,000 TZS coin top-up intent for user `u1`. -/
def sTopup : LedgerState := { emptyState with intents := [topupIntent] }

/-- The completed-webhook payload for `r1`. -/
def payTopup : Payload :=
  { reference := some "r1", status := some "completed", amountVal := some 10000
    userId := some "u1", metadata := some topupMeta }

/-- `sTopup` after the intent completed. -/
def sTopupDone : LedgerState :=
  { emptyState with intents := [{ topupIntent with status := "completed" }] }

/-- State after the top-up for `r1` settled: one deposit row, balance 10000. -/
def sSettled : LedgerState :=
  { emptyState with
    intents := [{ topupIntent with status := "completed" }]
    coinTxs := [{ userId := "u1", amount := 10000, txType := "deposit"
                  txStatus := "completed", reference := some "r1" }]
    coinWallets := [("u1", 10000)] }

/-- The reversal webhook body for `r1`. -/
def reversalBody : WebhookBody :=
  { btype := some "payment.reversed"
    payload := { reference := some "r1", status := some "reversed"
                 amountVal := some 10000, userId := none, metadata := none } }

/-- A webhook body reporting `processing` for `r1`. -/
def processingBody : WebhookBody :=
  { btype := none
    payload := { reference := some "r1", status := some "processing"
                 amountVal := none, userId := none, metadata := none } }

/-- A pending user payout of 500 coins with reference `p1`, wallet at 100. -/
def sPayout : LedgerState :=
  { emptyState with
    withdrawalReqs := [{ userId := "u1", amount := 500, status := "pending"
                         reference := some "p1" }]
    coinTxs := [{ userId := "u1", amount := -500, txType := "withdraw"
                  txStatus := "pending", reference := some "p1" }]
    coinWallets := [("u1", 100)] }

def failedPayoutPayload : Payload :=
  { reference := some "p1", status := some "failed", amountVal := none
    userId := none, metadata := none }

/-- Shop fixture: one delivered 20,000 TZS order already settled into the
shop wallet, with a configured payout method. -/
def sShop : LedgerState :=
  { emptyState with
    shops := [{ id := "shop1", userId := some "u1" }]
    shopWallets := [("shop1", 20000)]
    shopTxs := [{ shopId := "shop1", orderId := some "o1", amount := 20000
                  txType := "sale", txStatus := "completed", reference := some "r1" }]
    orders := [{ id := "o1", shopId := "shop1", buyerId := "b1", totalAmount := 20000
                 status := "delivered", paymentIssue := false }]
    shopPayoutMethods := [("shop1", { phone := some "255700000001", fullName := some "Owner" })] }

def okPayout : GwPayout := { reference := some "w1", status := some "pending" }

/-- User withdrawal fixture with a configured payout method and a small
balance. -/
def sUserLow : LedgerState :=
  { emptyState with
    coinWallets := [("u1", 10)]
    userPayoutMethods := [("u1", { phone := some "255700000002", fullName := some "Name" })] }

/-- Same fixture with a sufficient balance. -/
def sUserRich : LedgerState := { sUserLow with coinWallets := [("u1", 5000)] }

def shopOrderMeta : Meta := { userId := some "u1", kind := some "shop_order", orderId := some "o9" }

/-- A completed shop-order intent whose order row is missing. -/
def sOrderMissing : LedgerState :=
  { emptyState with
    intents := [{ reference := "r9", userId := some "u1", status := "completed"
                  amount := 5000, metadata := shopOrderMeta, createdAt := 0 }]
    shops := [{ id := "shop1", userId := some "u1" }]
    shopWallets := [("shop1", 0)] }

def payOrder : Payload :=
  { reference := some "r9", status := some "completed", amountVal := some 5000
    userId := some "u1", metadata := some shopOrderMeta }

/-- Shop-order settlement fixture where the order exists. -/
def sOrderPresent : LedgerState :=
  { sOrderMissing with
    orders := [{ id := "o9", shopId := "shop1", buyerId := "b1", totalAmount := 7000
                 status := "pending", paymentIssue := false }] }

/-- Same, but the order's total is zero (falls back to the payment amount). -/
def sOrderZeroTotal : LedgerState :=
  { sOrderMissing with
    orders := [{ id := "o9", shopId := "shop1", buyerId := "b1", totalAmount := 0
                 status := "pending", paymentIssue := false }] }

/-- An HMAC stand-in for closed counterexamples: the real code compares the
computed digest against the header. -/
def hmacStub (secret body : String) : String := secret ++ "/" ++ body

/-- A `JSON.parse` stand-in mapping the fixed raw body to the `processing`
payload for `r1`. -/
def parseStub (raw : String) : Option Payload :=
  if raw = "RAW" then some processingBody.payload else none

/-! ## Wallet-table lemmas -/

theorem getEntry_incEntry {V : Type} [AddCommMonoid V] (u x : String) (a : V)
    (w : List (String × V)) :
    getEntry (incEntry u a w) x 0 = getEntry w x 0 + (if x = u then a else 0) := by
  induction w with
  | nil =>
    simp only [incEntry, getEntry]
    by_cases h : x = u
    · subst h; simp
    · rw [if_neg h, if_neg (fun hh : u = x => h hh.symm)]
      simp
  | cons kv rest ih =>
    obtain ⟨k, v⟩ := kv
    by_cases hk : k = u
    · subst hk
      simp only [incEntry, if_pos rfl, getEntry]
      by_cases hx : k = x
      · subst hx; simp
      · rw [if_neg hx, if_neg hx, if_neg (fun hh : x = k => hx hh.symm), add_zero]
    · simp only [incEntry, if_neg hk, getEntry]
      by_cases hx : k = x
      · subst hx
        rw [if_pos rfl, if_pos rfl, if_neg (fun hh : k = u => hk hh), add_zero]
      · rw [if_neg hx, if_neg hx]
        exact ih

theorem coinBalance_increment (s : LedgerState) (u x : String) (a : Int) :
    getEntry (increment_coin_balance u a s.coinWallets).2 x 0 =
      coinBalance s x + (if x = u then a else 0) := by
  simp [increment_coin_balance, coinBalance, getEntry_incEntry]

theorem shopBalance_increment (w : List (String × Rat)) (u x : String) (a : Rat) :
    getEntry (increment_shop_balance u a w).2 x 0 =
      getEntry w x 0 + (if x = u then a else 0) := by
  simp [increment_shop_balance, getEntry_incEntry]

/-! ## Field-preservation lemmas for the Settlement Processor -/

@[simp] theorem orderPaidStep_intents (md : Meta) (s : LedgerState) :
    (orderPaidStep md s).intents = s.intents := by
  cases h : md.orderId <;> simp [orderPaidStep, h]

@[simp] theorem orderPaidStep_coinTxs (md : Meta) (s : LedgerState) :
    (orderPaidStep md s).coinTxs = s.coinTxs := by
  cases h : md.orderId <;> simp [orderPaidStep, h]

@[simp] theorem orderPaidStep_coinWallets (md : Meta) (s : LedgerState) :
    (orderPaidStep md s).coinWallets = s.coinWallets := by
  cases h : md.orderId <;> simp [orderPaidStep, h]

@[simp] theorem orderPaidStep_shopTxs (md : Meta) (s : LedgerState) :
    (orderPaidStep md s).shopTxs = s.shopTxs := by
  cases h : md.orderId <;> simp [orderPaidStep, h]

@[simp] theorem orderPaidStep_shopWallets (md : Meta) (s : LedgerState) :
    (orderPaidStep md s).shopWallets = s.shopWallets := by
  cases h : md.orderId <;> simp [orderPaidStep, h]

@[simp] theorem orderPaidStep_shops (md : Meta) (s : LedgerState) :
    (orderPaidStep md s).shops = s.shops := by
  cases h : md.orderId <;> simp [orderPaidStep, h]

theorem creditShop_eq_of_decision_none {oid : Option String} {r : String}
    {fb : Rat} {s : LedgerState}
    (h : shopCreditDecision oid r fb s.shopTxs s.orders s.shops = none) :
    creditShopWalletForOrder oid r fb s = s := by
  simp [creditShopWalletForOrder, h]

@[simp] theorem creditShop_intents (oid : Option String) (r : String) (fb : Rat)
    (s : LedgerState) : (creditShopWalletForOrder oid r fb s).intents = s.intents := by
  unfold creditShopWalletForOrder
  rcases h : shopCreditDecision oid r fb s.shopTxs s.orders s.shops with _ | ⟨sid, o, amt⟩ <;> simp

@[simp] theorem creditShop_coinTxs (oid : Option String) (r : String) (fb : Rat)
    (s : LedgerState) : (creditShopWalletForOrder oid r fb s).coinTxs = s.coinTxs := by
  unfold creditShopWalletForOrder
  rcases h : shopCreditDecision oid r fb s.shopTxs s.orders s.shops with _ | ⟨sid, o, amt⟩ <;> simp

@[simp] theorem creditShop_coinWallets (oid : Option String) (r : String) (fb : Rat)
    (s : LedgerState) : (creditShopWalletForOrder oid r fb s).coinWallets = s.coinWallets := by
  unfold creditShopWalletForOrder
  rcases h : shopCreditDecision oid r fb s.shopTxs s.orders s.shops with _ | ⟨sid, o, amt⟩ <;> simp

@[simp] theorem creditShop_orders (oid : Option String) (r : String) (fb : Rat)
    (s : LedgerState) : (creditShopWalletForOrder oid r fb s).orders = s.orders := by
  unfold creditShopWalletForOrder
  rcases h : shopCreditDecision oid r fb s.shopTxs s.orders s.shops with _ | ⟨sid, o, amt⟩ <;> simp

@[simp] theorem creditShop_shops (oid : Option String) (r : String) (fb : Rat)
    (s : LedgerState) : (creditShopWalletForOrder oid r fb s).shops = s.shops := by
  unfold creditShopWalletForOrder
  rcases h : shopCreditDecision oid r fb s.shopTxs s.orders s.shops with _ | ⟨sid, o, amt⟩ <;> simp

@[simp] theorem coinTopupStep_intents (rate : Rat) (r : String) (p : Payload)
    (fi : FinalIntent) (u : String) (s : LedgerState) :
    (coinTopupStep rate r p fi u s).intents = s.intents := by
  unfold coinTopupStep; split <;> simp

@[simp] theorem coinTopupStep_shopTxs (rate : Rat) (r : String) (p : Payload)
    (fi : FinalIntent) (u : String) (s : LedgerState) :
    (coinTopupStep rate r p fi u s).shopTxs = s.shopTxs := by
  unfold coinTopupStep; split <;> simp

@[simp] theorem coinTopupStep_shopWallets (rate : Rat) (r : String) (p : Payload)
    (fi : FinalIntent) (u : String) (s : LedgerState) :
    (coinTopupStep rate r p fi u s).shopWallets = s.shopWallets := by
  unfold coinTopupStep; split <;> simp

@[simp] theorem coinTopupStep_orders (rate : Rat) (r : String) (p : Payload)
    (fi : FinalIntent) (u : String) (s : LedgerState) :
    (coinTopupStep rate r p fi u s).orders = s.orders := by
  unfold coinTopupStep; split <;> simp

@[simp] theorem coinTopupStep_shops (rate : Rat) (r : String) (p : Payload)
    (fi : FinalIntent) (u : String) (s : LedgerState) :
    (coinTopupStep rate r p fi u s).shops = s.shops := by
  unfold coinTopupStep; split <;> simp

theorem settleCore_intents (rate : Rat) (r : String) (p : Payload) (fi : FinalIntent)
    (u : String) (s : LedgerState) : (settleCore rate r p fi u s).intents = s.intents := by
  simp only [settleCore]
  split <;> split <;> simp

theorem settleCore_shops (rate : Rat) (r : String) (p : Payload) (fi : FinalIntent)
    (u : String) (s : LedgerState) : (settleCore rate r p fi u s).shops = s.shops := by
  simp only [settleCore]
  split <;> split <;> simp

theorem handleCompletedPayment_intents (rate : Rat) (r : String) (p : Payload)
    (s : LedgerState) : (handleCompletedPayment rate r p s).intents = s.intents := by
  simp only [handleCompletedPayment]
  cases h : effUser (finalIntentFor (findIntent s r) p) p with
  | none => simp [h]
  | some u => simp [h, settleCore_intents]

/-! ## Idempotence of the Settlement Processor -/

theorem shopCreditDecision_none_cons (oid : Option String) (r : String) (fb : Rat)
    (tx : ShopTx) (txs : List ShopTx) (os : List Order) (ss : List Shop)
    (h : tx.reference = some r) :
    shopCreditDecision oid r fb (tx :: txs) os ss = none := by
  cases oid with
  | none => rfl
  | some o => simp [shopCreditDecision, List.find?_cons, h]

theorem coinTopupStep_of_isSome {rate : Rat} {r : String} {p : Payload}
    {fi : FinalIntent} {u : String} {s : LedgerState}
    (h : (s.coinTxs.find? (fun t => t.reference == some r && t.txType == "deposit")).isSome) :
    coinTopupStep rate r p fi u s = s := by
  simp [coinTopupStep, h]

theorem orderPaidStep_absorb (md : Meta) (s t : LedgerState)
    (h : t.orders = (orderPaidStep md s).orders) : orderPaidStep md t = t := by
  cases hmd : md.orderId with
  | none => simp [orderPaidStep, hmd]
  | some oid =>
    simp only [orderPaidStep, hmd] at h ⊢
    have horders : (t.orders.map (fun o =>
        if o.id = oid then { o with status := "processing", paymentIssue := false } else o)) =
        t.orders := by
      rw [h, List.map_map]
      refine List.map_congr_left (fun o _ => ?_)
      by_cases ho : o.id = oid
      · cases o; simp_all
      · cases o; simp_all
    rw [horders]

theorem settleCore_orders (rate : Rat) (r : String) (p : Payload) (fi : FinalIntent)
    (u : String) (s : LedgerState) :
    (settleCore rate r p fi u s).orders = (orderPaidStep fi.metadata s).orders := by
  simp only [settleCore]
  split <;> split <;> simp

theorem settleCore_idem (rate : Rat) (r : String) (p : Payload) (fi : FinalIntent)
    (u : String) (s : LedgerState) :
    settleCore rate r p fi u (settleCore rate r p fi u s) = settleCore rate r p fi u s := by
  set md := fi.metadata with hmdDef
  set fb := jsNum (some fi.amount) (jsNum p.amountVal 0) with hfbDef
  set t := settleCore rate r p fi u s with htDef
  have hO : orderPaidStep md t = t :=
    orderPaidStep_absorb md s t (by rw [htDef]; exact settleCore_orders ..)
  have hS : creditShopWalletForOrder md.orderId r fb t = t := by
    by_cases hsh : (md.kind == some "shop_order" || md.orderId.isSome) = true
    · -- the shop branch ran in the first invocation
      rcases hdec : shopCreditDecision md.orderId r fb
          (orderPaidStep md s).shopTxs (orderPaidStep md s).orders
          (orderPaidStep md s).shops with _ | ⟨sid, o, amt⟩
      · -- first run skipped the credit: the decision inputs are unchanged
        have ht2 : t = (if (md.kind == some "coin_topup") = true then
            coinTopupStep rate r p fi u (orderPaidStep md s) else orderPaidStep md s) := by
          rw [htDef]
          simp only [settleCore, ← hmdDef, ← hfbDef, hsh, if_true,
            creditShop_eq_of_decision_none hdec]
        have hTxs : t.shopTxs = (orderPaidStep md s).shopTxs := by
          rw [ht2]; split <;> simp
        have hOrd : t.orders = (orderPaidStep md s).orders := by
          rw [ht2]; split <;> simp
        have hShops : t.shops = (orderPaidStep md s).shops := by
          rw [ht2]; split <;> simp
        apply creditShop_eq_of_decision_none
        rw [hTxs, hOrd, hShops, hdec]
      · -- first run inserted the sale row: the gate now trips
        have ht2 : t = (if (md.kind == some "coin_topup") = true then
            coinTopupStep rate r p fi u
              (creditShopWalletForOrder md.orderId r fb (orderPaidStep md s))
            else creditShopWalletForOrder md.orderId r fb (orderPaidStep md s)) := by
          rw [htDef]
          simp only [settleCore, ← hmdDef, ← hfbDef, hsh, if_true]
        have hdecN : shopCreditDecision md.orderId r fb s.shopTxs
            (orderPaidStep md s).orders s.shops = some (sid, o, amt) := by
          simpa using hdec
        have hcredit : (creditShopWalletForOrder md.orderId r fb (orderPaidStep md s)).shopTxs =
            { shopId := sid, orderId := some o, amount := amt, txType := "sale"
              txStatus := "completed", reference := some r } :: s.shopTxs := by
          simp [creditShopWalletForOrder, hdecN]
        have hTxs : t.shopTxs =
            { shopId := sid, orderId := some o, amount := amt, txType := "sale"
              txStatus := "completed", reference := some r } :: s.shopTxs := by
          rw [ht2]
          split <;> simp [hcredit]
        apply creditShop_eq_of_decision_none
        rw [hTxs]
        exact shopCreditDecision_none_cons _ _ _ _ _ _ _ rfl
    · -- the shop branch did not run; the decision inputs are those of `s`
      have ht2 : t = (if (md.kind == some "coin_topup") = true then
          coinTopupStep rate r p fi u (orderPaidStep md s) else orderPaidStep md s) := by
        rw [htDef]
        simp only [settleCore, ← hmdDef, ← hfbDef, hsh, if_false, Bool.false_eq_true]
      -- `md.orderId = none`, otherwise the branch condition would hold
      have hoid : md.orderId = none := by
        cases hmd : md.orderId with
        | none => rfl
        | some o => simp [hmd] at hsh
      simp [creditShopWalletForOrder, shopCreditDecision, hoid]
  have hC : (md.kind == some "coin_topup") = true → coinTopupStep rate r p fi u t = t := by
    intro hcn
    set s2 := (if (md.kind == some "shop_order" || md.orderId.isSome) = true then
        creditShopWalletForOrder md.orderId r fb (orderPaidStep md s)
        else orderPaidStep md s) with hs2Def
    have ht2 : t = coinTopupStep rate r p fi u s2 := by
      rw [htDef]
      simp only [settleCore, ← hmdDef, ← hfbDef, ← hs2Def, hcn, if_true]
    by_cases hg : (s2.coinTxs.find? (fun t =>
        t.reference == some r && t.txType == "deposit")).isSome = true
    · rw [ht2, coinTopupStep_of_isSome hg, coinTopupStep_of_isSome hg]
    · have hTxs : t.coinTxs =
          { userId := u, amount := ⌊settleAmount p fi * rate⌋, txType := "deposit"
            txStatus := "completed", reference := some r } :: s2.coinTxs := by
        rw [ht2]
        simp [coinTopupStep, hg]
      apply coinTopupStep_of_isSome
      rw [hTxs]
      simp [List.find?_cons]
  -- assemble: the second invocation leaves `t` unchanged
  conv_lhs => rw [settleCore]
  simp only [← hmdDef, ← hfbDef, hO]
  by_cases hsh : (md.kind == some "shop_order" || md.orderId.isSome) = true
  · simp only [hsh, if_true, hS]
    by_cases hcn : (md.kind == some "coin_topup") = true
    · simp only [hcn, if_true]
      exact hC hcn
    · simp [hcn]
  · by_cases hcn : (md.kind == some "coin_topup") = true
    · simp only [hsh, if_false, hcn, if_true]
      simpa [hsh] using hC hcn
    · simp [hsh, hcn]

/-- Unfolding equation for `handleCompletedPayment`. -/
theorem handleCompletedPayment_eq (rate : Rat) (r : String) (p : Payload)
    (s : LedgerState) :
    handleCompletedPayment rate r p s =
      match effUser (finalIntentFor (findIntent s r) p) p with
      | none => s
      | some u => settleCore rate r p (finalIntentFor (findIntent s r) p) u s := rfl

theorem handleCompletedPayment_idem (rate : Rat) (r : String) (p : Payload)
    (s : LedgerState) :
    handleCompletedPayment rate r p (handleCompletedPayment rate r p s) =
      handleCompletedPayment rate r p s := by
  have hfi : findIntent (handleCompletedPayment rate r p s) r = findIntent s r := by
    unfold findIntent
    rw [handleCompletedPayment_intents]
  cases h : effUser (finalIntentFor (findIntent s r) p) p with
  | none =>
    have h0 : handleCompletedPayment rate r p s = s := by
      simp only [handleCompletedPayment_eq, h]
    rw [h0]
    exact h0
  | some u =>
    have h1 : handleCompletedPayment rate r p s =
        settleCore rate r p (finalIntentFor (findIntent s r) p) u s := by
      simp only [handleCompletedPayment_eq, h]
    conv_lhs => rw [handleCompletedPayment_eq]
    rw [hfi]
    simp only [h]
    rw [h1]
    exact settleCore_idem ..

/-! ## Row-insertion characterization of the Settlement Processor -/

theorem settleCore_coinTxs_cases (rate : Rat) (r : String) (p : Payload)
    (fi : FinalIntent) (u : String) (s : LedgerState) :
    (settleCore rate r p fi u s).coinTxs = s.coinTxs ∨
    (settleCore rate r p fi u s).coinTxs =
      { userId := u, amount := ⌊settleAmount p fi * rate⌋, txType := "deposit"
        txStatus := "completed", reference := some r } :: s.coinTxs := by
  simp only [settleCore]
  generalize hs2 : (if (fi.metadata.kind == some "shop_order" || fi.metadata.orderId.isSome) = true
      then creditShopWalletForOrder fi.metadata.orderId r
        (jsNum (some fi.amount) (jsNum p.amountVal 0)) (orderPaidStep fi.metadata s)
      else orderPaidStep fi.metadata s) = s2
  have h2 : s2.coinTxs = s.coinTxs := by
    rw [← hs2]; split <;> simp
  by_cases hcn : (fi.metadata.kind == some "coin_topup") = true
  · simp only [hcn, if_true, coinTopupStep]
    split
    · left; exact h2
    · right; simp [h2]
  · simp only [hcn, if_false]
    left; exact h2

theorem settleCore_shopTxs_cases (rate : Rat) (r : String) (p : Payload)
    (fi : FinalIntent) (u : String) (s : LedgerState) :
    (settleCore rate r p fi u s).shopTxs = s.shopTxs ∨
    ∃ sid o amt, (settleCore rate r p fi u s).shopTxs =
      { shopId := sid, orderId := some o, amount := amt, txType := "sale"
        txStatus := "completed", reference := some r } :: s.shopTxs := by
  simp only [settleCore]
  generalize hs2 : (if (fi.metadata.kind == some "shop_order" || fi.metadata.orderId.isSome) = true
      then creditShopWalletForOrder fi.metadata.orderId r
        (jsNum (some fi.amount) (jsNum p.amountVal 0)) (orderPaidStep fi.metadata s)
      else orderPaidStep fi.metadata s) = s2
  have h2 : s2.shopTxs = s.shopTxs ∨
      ∃ sid o amt, s2.shopTxs =
        { shopId := sid, orderId := some o, amount := amt, txType := "sale"
          txStatus := "completed", reference := some r } :: s.shopTxs := by
    rw [← hs2]
    split
    · unfold creditShopWalletForOrder
      rcases hdec : shopCreditDecision fi.metadata.orderId r
          (jsNum (some fi.amount) (jsNum p.amountVal 0))
          (orderPaidStep fi.metadata s).shopTxs (orderPaidStep fi.metadata s).orders
          (orderPaidStep fi.metadata s).shops with _ | ⟨sid, o, amt⟩
      · left; simp
      · right; exact ⟨sid, o, amt, by simp⟩
    · left; simp
  have h3 : ∀ x : LedgerState, (if (fi.metadata.kind == some "coin_topup") = true
      then coinTopupStep rate r p fi u x else x).shopTxs = x.shopTxs := by
    intro x; split <;> simp
  rw [h3 s2] at *
  exact h2

/-- The coin branch outcome when the intent is a top-up and the idempotency
gate is open. -/
theorem settleCore_topup (rate : Rat) (r : String) (p : Payload) (fi : FinalIntent)
    (u : String) (s : LedgerState)
    (hk : fi.metadata.kind = some "coin_topup")
    (hfind : s.coinTxs.find? (fun t => t.reference == some r && t.txType == "deposit") = none) :
    (settleCore rate r p fi u s).coinTxs =
      { userId := u, amount := ⌊settleAmount p fi * rate⌋, txType := "deposit"
        txStatus := "completed", reference := some r } :: s.coinTxs ∧
    (settleCore rate r p fi u s).coinWallets =
      incEntry u ⌊settleAmount p fi * rate⌋ s.coinWallets := by
  simp only [settleCore]
  generalize hs2 : (if (fi.metadata.kind == some "shop_order" || fi.metadata.orderId.isSome) = true
      then creditShopWalletForOrder fi.metadata.orderId r
        (jsNum (some fi.amount) (jsNum p.amountVal 0)) (orderPaidStep fi.metadata s)
      else orderPaidStep fi.metadata s) = s2
  have h2 : s2.coinTxs = s.coinTxs := by
    rw [← hs2]; split <;> simp
  have h2w : s2.coinWallets = s.coinWallets := by
    rw [← hs2]; split <;> simp
  have hcn : (fi.metadata.kind == some "coin_topup") = true := by simp [hk]
  simp only [hcn, if_true, coinTopupStep, h2, hfind]
  simp [increment_coin_balance, h2w]

/-! ## Claim theorems -/

/-- **C1**: for every reference `r`, invoking the Settlement Processor
(`handleCompletedPayment`, the single entry point shared by the webhook,
the scheduler sweep, missing-credit reconciliation and the manual check) any
number of times creates at most one `deposit` coin-transaction row and at
most one `sale` shop-transaction row for `r`, and every invocation after
the first is a no-op — the whole state (ledger included) after `n + 1`
invocations equals the state after one. -/
theorem C1_settlement_at_most_once (rate : Rat) (r : String) (p : Payload)
    (s : LedgerState) (hdep : depositTxsFor s r = []) (hsale : saleTxsFor s r = []) :
    (depositTxsFor (handleCompletedPayment rate r p s) r).length ≤ 1 ∧
    (saleTxsFor (handleCompletedPayment rate r p s) r).length ≤ 1 ∧
    ∀ n : ℕ, (handleCompletedPayment rate r p)^[n + 1] s =
      handleCompletedPayment rate r p s := by
  refine ⟨?_, ?_, ?_⟩
  · have hcases : (handleCompletedPayment rate r p s).coinTxs = s.coinTxs ∨
        ∃ u coins, (handleCompletedPayment rate r p s).coinTxs =
          ({ userId := u, amount := coins, txType := "deposit"
             txStatus := "completed", reference := some r } : CoinTx) :: s.coinTxs := by
      rw [handleCompletedPayment_eq]
      cases h : effUser (finalIntentFor (findIntent s r) p) p with
      | none => left; rfl
      | some u =>
        rcases settleCore_coinTxs_cases rate r p (finalIntentFor (findIntent s r) p) u s
          with hc | hc
        · left; exact hc
        · right; exact ⟨u, _, hc⟩
    simp only [depositTxsFor, coinTxsFor] at hdep ⊢
    rcases hcases with hc | ⟨u, coins, hc⟩
    · rw [hc, hdep]; simp
    · rw [hc, List.filter_cons]
      simp [hdep]
  · have hcases : (handleCompletedPayment rate r p s).shopTxs = s.shopTxs ∨
        ∃ sid o amt, (handleCompletedPayment rate r p s).shopTxs =
          ({ shopId := sid, orderId := some o, amount := amt, txType := "sale"
             txStatus := "completed", reference := some r } : ShopTx) :: s.shopTxs := by
      rw [handleCompletedPayment_eq]
      cases h : effUser (finalIntentFor (findIntent s r) p) p with
      | none => left; rfl
      | some u =>
        exact settleCore_shopTxs_cases rate r p (finalIntentFor (findIntent s r) p) u s
    simp only [saleTxsFor, shopTxsFor] at hsale ⊢
    rcases hcases with hc | ⟨sid, o, amt, hc⟩
    · rw [hc, hsale]; simp
    · rw [hc, List.filter_cons]
      simp [hsale]
  · intro n
    induction n with
    | zero => rfl
    | succ k ih =>
      rw [Function.iterate_succ_apply', ih, handleCompletedPayment_idem]

theorem C1_settlement_at_most_once_witness :
    depositTxsFor sTopup "r1" = [] ∧ saleTxsFor sTopup "r1" = [] ∧
    (depositTxsFor (handleCompletedPayment 1 "r1" payTopup sTopup) "r1").length ≤ 1 ∧
    (handleCompletedPayment 1 "r1" payTopup)^[3] sTopup =
      handleCompletedPayment 1 "r1" payTopup sTopup := by
  have h := C1_settlement_at_most_once 1 "r1" payTopup sTopup (by decide) (by decide)
  exact ⟨by decide, by decide, h.1, h.2.2 2⟩

/-- **C2**: for a completed payment whose effective metadata kind is
`coin_topup`, with no existing deposit row for its reference, settlement
credits exactly `floor(paymentAmount * coinRate)` coins — where
`paymentAmount` is the code's `payload.amount?.value || payload.amount ||
finalIntent.amount || 0` chain (`settleAmount`) — and inserts exactly one
deposit row carrying that same amount. -/
theorem C2_topup_credit_amount (rate : Rat) (r : String) (p : Payload)
    (s : LedgerState) (u : String)
    (hu : effUser (finalIntentFor (findIntent s r) p) p = some u)
    (hk : (finalIntentFor (findIntent s r) p).metadata.kind = some "coin_topup")
    (hdep : depositTxsFor s r = []) :
    coinBalance (handleCompletedPayment rate r p s) u =
      coinBalance s u + ⌊settleAmount p (finalIntentFor (findIntent s r) p) * rate⌋ ∧
    depositTxsFor (handleCompletedPayment rate r p s) r =
      [{ userId := u, amount := ⌊settleAmount p (finalIntentFor (findIntent s r) p) * rate⌋
         txType := "deposit", txStatus := "completed", reference := some r }] := by
  have hfind : s.coinTxs.find?
      (fun t => t.reference == some r && t.txType == "deposit") = none := by
    rw [List.find?_eq_none]
    intro x hx
    simp only [depositTxsFor, coinTxsFor] at hdep
    exact List.filter_eq_nil_iff.mp hdep x hx
  have hres := settleCore_topup rate r p (finalIntentFor (findIntent s r) p) u s hk hfind
  have hstate : handleCompletedPayment rate r p s =
      settleCore rate r p (finalIntentFor (findIntent s r) p) u s := by
    simp only [handleCompletedPayment_eq, hu]
  constructor
  · rw [hstate]
    simp only [coinBalance, hres.2, getEntry_incEntry]
    simp
  · rw [hstate]
    simp only [depositTxsFor, coinTxsFor] at hdep ⊢
    rw [hres.1, List.filter_cons]
    simp [hdep]

theorem C2_topup_credit_amount_witness :
    effUser (finalIntentFor (findIntent sTopup "r1") payTopup) payTopup = some "u1" ∧
    coinBalance (handleCompletedPayment 1 "r1" payTopup sTopup) "u1" =
      coinBalance sTopup "u1" + 10000 := by
  have h := C2_topup_credit_amount 1 "r1" payTopup sTopup "u1" (by decide) (by decide)
    (by decide)
  refine ⟨by decide, ?_⟩
  have h1 := h.1
  have hcoins : ⌊settleAmount payTopup (finalIntentFor (findIntent sTopup "r1") payTopup) *
      (1 : Rat)⌋ = (10000 : Int) := by
    norm_num [settleAmount, jsNum, finalIntentFor, findIntent, sTopup, topupIntent,
      payTopup, topupMeta, emptyState, List.find?]
  rw [hcoins] at h1
  exact h1

/-! ### Polling-path frame helpers (shared by C8 and C10) -/

theorem checkAndUpdate_completed (rate : Rat) (r : String)
    (gw : String → Option GwPayment) (s : LedgerState) (i : PaymentIntent)
    (hfind : findIntent s r = some i) (hst : i.status = "completed") :
    checkAndUpdatePaymentStatus rate r gw s = (.alreadyProcessed, s, []) := by
  simp [checkAndUpdatePaymentStatus, hfind, hst]

theorem checkAndUpdate_no_reversal (rate : Rat) (r : String)
    (gw : String → Option GwPayment) (s : LedgerState) :
    CheckEvent.reversalInvoked ∉ (checkAndUpdatePaymentStatus rate r gw s).2.2 := by
  simp only [checkAndUpdatePaymentStatus]
  cases h1 : findIntent s r with
  | none => simp
  | some j =>
    by_cases h2 : j.status = "completed"
    · simp [h2]
    · simp only [h2, if_false]
      cases h3 : gw r with
      | none => simp
      | some gp => simp [h2]

/-- **C10**: for a reference whose stored intent is already `completed`,
`checkAndUpdatePaymentStatus` (used by both the pending-payment sweep and
the manual force-check) returns `alreadyProcessed` without polling the
gateway and without touching the state; consequently its
completed-then-reversed branch never fires — no invocation, on any state
and any gateway response, ever emits the reversal event. -/
theorem C10_completed_intent_frame (rate : Rat) (r : String)
    (gw : String → Option GwPayment) (s : LedgerState) (i : PaymentIntent)
    (hfind : findIntent s r = some i) (hst : i.status = "completed") :
    checkAndUpdatePaymentStatus rate r gw s = (.alreadyProcessed, s, []) ∧
    ∀ (rate2 : Rat) (r2 : String) (gw2 : String → Option GwPayment) (s2 : LedgerState),
      CheckEvent.reversalInvoked ∉ (checkAndUpdatePaymentStatus rate2 r2 gw2 s2).2.2 := by
  exact ⟨checkAndUpdate_completed rate r gw s i hfind hst,
    fun rate2 r2 gw2 s2 => checkAndUpdate_no_reversal rate2 r2 gw2 s2⟩

theorem C10_completed_intent_frame_witness :
    checkAndUpdatePaymentStatus 1 "r1" (fun _ => none) sTopupDone =
      (.alreadyProcessed, sTopupDone, []) ∧
    CheckEvent.reversalInvoked ∉
      (checkAndUpdatePaymentStatus 1 "r1" (fun _ => none) sTopupDone).2.2 := by
  have h := C10_completed_intent_frame 1 "r1" (fun _ => none) sTopupDone
    { topupIntent with status := "completed" } (by decide) (by decide)
  exact ⟨h.1, h.2 1 "r1" (fun _ => none) sTopupDone⟩

/-- **C4** (code bug): the failed-payout restore inside
`syncPayoutStatusInDb` has no idempotency gate — it selects the payout
row's current status but never checks it.  Delivering the `payout.failed`
webhook twice for the same pending user payout of 500 coins credits the
wallet twice (100 → 600 → 1100) and inserts two `adjustment` rows, where
the claim demands exactly one restore. -/
theorem C4_failed_payout_restore_not_idempotent :
    coinBalance (handlePayoutWebhook "p1" (some "payout.failed") failedPayoutPayload
        (handlePayoutWebhook "p1" (some "payout.failed") failedPayoutPayload sPayout)) "u1" =
      1100 ∧
    coinBalance (handlePayoutWebhook "p1" (some "payout.failed") failedPayoutPayload sPayout)
        "u1" = 600 ∧
    (adjustmentTxsFor (handlePayoutWebhook "p1" (some "payout.failed") failedPayoutPayload
        (handlePayoutWebhook "p1" (some "payout.failed") failedPayoutPayload sPayout))
        "p1").length = 2 := by
  decide

/-- **C8 counterexample**: the webhook handler writes the reported status
unconditionally — a webhook reporting `processing` for the already
`completed` intent `r1` moves it back to `processing`, contradicting the
claimed monotonicity. -/
theorem C8_counterexample :
    (findIntent sTopupDone "r1").map PaymentIntent.status = some "completed" ∧
    (findIntent (handleWebhook 1 processingBody none sTopupDone).2 "r1").map
      PaymentIntent.status = some "processing" := by
  decide

/-- **C8 (amended)**: monotonicity guards exist only on the polling paths:
the polling reconciler never touches a completed intent, stale expiry only
moves `pending`/`processing` intents older than 24 h to `expired`, and
failed-payment reconciliation only ever writes `completed`.  (The webhook
path itself applies the reported status unconditionally — see the
counterexample.) -/
theorem C8_amended_monotonicity_guards :
    (∀ (rate : Rat) (r : String) (gw : String → Option GwPayment) (s : LedgerState)
       (i : PaymentIntent), findIntent s r = some i → i.status = "completed" →
       checkAndUpdatePaymentStatus rate r gw s = (.alreadyProcessed, s, [])) ∧
    (∀ (now : Int) (s : LedgerState) (j : PaymentIntent),
       j ∈ (expireStalePayments now s).intents →
       j ∈ s.intents ∨ ∃ i ∈ s.intents, j = { i with status := "expired" } ∧
         (i.status = "pending" ∨ i.status = "processing") ∧
         i.createdAt < now - 24 * 60 * 60 * 1000) ∧
    (∀ (rate : Rat) (now : Int) (gw : String → Option GwPayment) (s : LedgerState)
       (j : PaymentIntent), j ∈ (reconcileFailedPayments rate now gw s).intents →
       j.status = "completed" ∨ j ∈ s.intents) := by
  refine ⟨fun rate r gw s i hfind hst => checkAndUpdate_completed rate r gw s i hfind hst,
    ?_, ?_⟩
  · intro now s j hj
    simp only [expireStalePayments, List.mem_map] at hj
    obtain ⟨i, hi, heq⟩ := hj
    by_cases hc : (i.status = "pending" ∨ i.status = "processing") ∧
        i.createdAt < now - 24 * 60 * 60 * 1000
    · right
      refine ⟨i, hi, ?_, hc.1, hc.2⟩
      rw [← heq, if_pos hc]
    · left
      rw [← heq, if_neg hc]
      exact hi
  · intro rate now gw s j hj
    suffices h : ∀ (l : List PaymentIntent) (acc : LedgerState),
        (∀ k ∈ acc.intents, k.status = "completed" ∨ k ∈ s.intents) →
        ∀ k ∈ (l.foldl (reconcileStep rate gw) acc).intents,
          k.status = "completed" ∨ k ∈ s.intents by
      apply h _ s (fun k hk => Or.inr hk) j
      simpa [reconcileFailedPayments] using hj
    intro l
    induction l with
    | nil => intro acc hacc k hk; exact hacc k hk
    | cons hd tl ih =>
      intro acc hacc
      rw [List.foldl_cons]
      apply ih
      intro k hk
      simp only [reconcileStep] at hk
      split at hk
      · split at hk
        · rw [handleCompletedPayment_intents] at hk
          simp only [List.mem_map] at hk
          obtain ⟨k0, hk0, heq⟩ := hk
          by_cases hr : k0.reference = hd.reference
          · left
            rw [← heq, if_pos hr]
          · have : k = k0 := by rw [← heq, if_neg hr]
            rw [this]
            exact hacc k0 hk0
        · exact hacc k hk
      · exact hacc k hk

theorem C8_amended_monotonicity_guards_witness :
    checkAndUpdatePaymentStatus 1 "r1" (fun _ => none) sTopupDone =
      (.alreadyProcessed, sTopupDone, []) ∧
    ({ topupIntent with status := "expired" } ∈ sTopup.intents ∨
      ∃ i ∈ sTopup.intents, { topupIntent with status := "expired" } =
        { i with status := "expired" } ∧
        (i.status = "pending" ∨ i.status = "processing") ∧
        i.createdAt < 172800000 - 24 * 60 * 60 * 1000) := by
  refine ⟨C8_amended_monotonicity_guards.1 1 "r1" (fun _ => none) sTopupDone
    { topupIntent with status := "completed" } (by decide) (by decide), ?_⟩
  exact C8_amended_monotonicity_guards.2.1 172800000 sTopup
    { topupIntent with status := "expired" } (by decide)

/-- **C3 counterexample**: with a (non-placeholder) webhook secret
configured but the signature header missing, the first-revision webhook
handler skips verification instead of rejecting: the request is accepted
and the stored intent's status is changed.  (The second revision of
`handleWebhook` performs no signature verification at all.) -/
theorem C3_counterexample :
    (handleWebhookV1 1 "s3cret" hmacStub parseStub "RAW" none sTopup).1 =
      .ok (.ok none "r1" "processing") ∧
    (findIntent (handleWebhookV1 1 "s3cret" hmacStub parseStub "RAW" none sTopup).2 "r1").map
      PaymentIntent.status = some "processing" := by
  decide

/-- **C3 (amended)**: when a non-placeholder secret is configured and a
signature header IS present, a mismatching HMAC is rejected with an
authentication error before parsing, and the state is returned untouched —
no intent update and no ledger mutation.  A missing signature header skips
verification (see the counterexample). -/
theorem C3_amended_signature_reject (rate : Rat) (secret : String)
    (hmac : String → String → String) (parseBody : String → Option Payload)
    (rawBody : String) (sig : Option String) (s : LedgerState) (sg : String)
    (h1 : secret ≠ "") (h2 : secret ≠ "YOUR_WEBHOOK_SECRET") (h3 : sig = some sg)
    (h4 : hmac secret rawBody ≠ sg) :
    handleWebhookV1 rate secret hmac parseBody rawBody sig s =
      (.error .invalidSignature, s) := by
  subst h3
  simp [handleWebhookV1, h1, h2, h4]

theorem C3_amended_signature_reject_witness :
    handleWebhookV1 1 "s3cret" hmacStub parseStub "RAW" (some "bad") sTopup =
      (.error .invalidSignature, sTopup) :=
  C3_amended_signature_reject 1 "s3cret" hmacStub parseStub "RAW" (some "bad") sTopup
    "bad" (by decide) (by decide) rfl (by decide)

/-- **C9 counterexample**: for a completed shop-order payment whose order
row is missing, the shop credit is skipped entirely — no fallback to the
payment amount, no balance change, no sale row — contradicting the claim
that the shop balance is still credited in that case. -/
theorem C9_counterexample :
    handleCompletedPayment 1 "r9" payOrder sOrderMissing = sOrderMissing ∧
    saleTxsFor (handleCompletedPayment 1 "r9" payOrder sOrderMissing) "r9" = [] ∧
    shopBalance (handleCompletedPayment 1 "r9" payOrder sOrderMissing) "shop1" = 0 := by
  decide

/-- **C9 (amended)**: the shop credit amount comes from the order's total;
the payment amount is used as a fallback only when the order row exists but
its total is missing/zero; when the order row itself is missing the credit
is skipped entirely. -/
theorem C9_amended_credit_amount :
    (∀ (o r : String) (fb : Rat) (s : LedgerState),
       s.orders.find? (fun x => x.id == o) = none →
       creditShopWalletForOrder (some o) r fb s = s) ∧
    (∀ (o r : String) (fb : Rat) (s : LedgerState) (ord : Order) (sh : Shop),
       (s.shopTxs.find? (fun t => t.reference == some r)).isSome = false →
       s.orders.find? (fun x => x.id == o) = some ord →
       s.shops.find? (fun x => x.id == ord.shopId) = some sh →
       sh.userId ≠ none → ord.totalAmount ≠ 0 → 0 < ord.totalAmount →
       shopBalance (creditShopWalletForOrder (some o) r fb s) sh.id =
         shopBalance s sh.id + ord.totalAmount ∧
       saleTxsFor (creditShopWalletForOrder (some o) r fb s) r =
         ({ shopId := sh.id, orderId := some ord.id, amount := ord.totalAmount
            txType := "sale", txStatus := "completed", reference := some r } : ShopTx) ::
           saleTxsFor s r) ∧
    (∀ (o r : String) (fb : Rat) (s : LedgerState) (ord : Order) (sh : Shop),
       (s.shopTxs.find? (fun t => t.reference == some r)).isSome = false →
       s.orders.find? (fun x => x.id == o) = some ord →
       s.shops.find? (fun x => x.id == ord.shopId) = some sh →
       sh.userId ≠ none → ord.totalAmount = 0 → fb ≠ 0 → 0 < fb →
       shopBalance (creditShopWalletForOrder (some o) r fb s) sh.id =
         shopBalance s sh.id + fb) := by
  refine ⟨?_, ?_, ?_⟩
  · intro o r fb s hord
    apply creditShop_eq_of_decision_none
    simp [shopCreditDecision, hord]
  · intro o r fb s ord sh hgate hord hshop huid hne hpos
    have hdec : shopCreditDecision (some o) r fb s.shopTxs s.orders s.shops =
        some (sh.id, ord.id, ord.totalAmount) := by
      simp [shopCreditDecision, hgate, hord, hshop, jsNum, hne, not_le.mpr hpos, huid]
    constructor
    · simp only [creditShopWalletForOrder, hdec, shopBalance]
      rw [shopBalance_increment]
      simp [shopBalance]
    · simp only [creditShopWalletForOrder, hdec, saleTxsFor, shopTxsFor]
      rw [List.filter_cons]
      simp
  · intro o r fb s ord sh hgate hord hshop huid hzero hfb hpos
    have hdec : shopCreditDecision (some o) r fb s.shopTxs s.orders s.shops =
        some (sh.id, ord.id, fb) := by
      simp [shopCreditDecision, hgate, hord, hshop, jsNum, hzero, hfb, not_le.mpr hpos, huid]
    simp only [creditShopWalletForOrder, hdec, shopBalance]
    rw [shopBalance_increment]
    simp [shopBalance]

theorem C9_amended_credit_amount_witness :
    creditShopWalletForOrder (some "o9") "r9" 5000 sOrderMissing = sOrderMissing ∧
    shopBalance (creditShopWalletForOrder (some "o9") "r9" 5000 sOrderPresent) "shop1" =
      shopBalance sOrderPresent "shop1" + 7000 ∧
    shopBalance (creditShopWalletForOrder (some "o9") "r9" 5000 sOrderZeroTotal) "shop1" =
      shopBalance sOrderZeroTotal "shop1" + 5000 := by
  refine ⟨C9_amended_credit_amount.1 "o9" "r9" 5000 sOrderMissing (by decide), ?_, ?_⟩
  · exact (C9_amended_credit_amount.2.1 "o9" "r9" 5000 sOrderPresent
      { id := "o9", shopId := "shop1", buyerId := "b1", totalAmount := 7000
        status := "pending", paymentIssue := false }
      { id := "shop1", userId := some "u1" }
      (by decide) (by decide) (by decide) (by decide) (by decide) (by decide)).1
  · exact C9_amended_credit_amount.2.2 "o9" "r9" 5000 sOrderZeroTotal
      { id := "o9", shopId := "shop1", buyerId := "b1", totalAmount := 0
        status := "pending", paymentIssue := false }
      { id := "shop1", userId := some "u1" }
      (by decide) (by decide) (by decide) (by decide) (by decide) (by decide) (by decide)

/-! ### Reversal Handler lemmas -/

@[simp] theorem reversalCoinStep_intents (rate : Rat) (r : String) (i : PaymentIntent)
    (p : Payload) (s : LedgerState) :
    (reversalCoinStep rate r i p s).intents = s.intents := by
  simp only [reversalCoinStep]
  split
  · rfl
  · split
    · split
      · rfl
      · simp
    · rfl

@[simp] theorem reversalOrderStep_intents (r : String) (i : PaymentIntent)
    (p : Payload) (s : LedgerState) :
    (reversalOrderStep r i p s).intents = s.intents := by
  simp only [reversalOrderStep]
  split
  · rfl
  · split
    · simp
    · split
      · simp
      · simp

@[simp] theorem reversalOrderStep_coinTxs (r : String) (i : PaymentIntent)
    (p : Payload) (s : LedgerState) :
    (reversalOrderStep r i p s).coinTxs = s.coinTxs := by
  simp only [reversalOrderStep]
  split
  · rfl
  · split
    · simp
    · split
      · simp
      · simp

@[simp] theorem reversalOrderStep_coinWallets (r : String) (i : PaymentIntent)
    (p : Payload) (s : LedgerState) :
    (reversalOrderStep r i p s).coinWallets = s.coinWallets := by
  simp only [reversalOrderStep]
  split
  · rfl
  · split
    · simp
    · split
      · simp
      · simp

theorem handleReversedPayment_intents (rate : Rat) (r : String) (i : PaymentIntent)
    (p : Payload) (s : LedgerState) :
    (handleReversedPayment rate r i p s).intents = s.intents := by
  unfold handleReversedPayment
  simp

/-- The coin branch of the Reversal Handler when it applies: gate open,
top-up kind, resolved user, sufficient balance. -/
theorem reversalCoinStep_applied (rate : Rat) (r : String) (i : PaymentIntent)
    (p : Payload) (s : LedgerState) (u : String)
    (hkind : i.metadata.kind = some "coin_topup")
    (hu : (i.metadata.userId <|> i.userId <|> p.userId) = some u)
    (hgate : s.coinTxs.find?
      (fun t => t.reference == some r && t.txType == "adjustment") = none)
    (hbal : ⌊jsNum p.amountVal (jsNum (some i.amount) 0) * rate⌋ ≤ coinBalance s u) :
    (reversalCoinStep rate r i p s).coinTxs =
      { userId := u, amount := -|⌊jsNum p.amountVal (jsNum (some i.amount) 0) * rate⌋|
        txType := "adjustment", txStatus := "completed"
        reference := some r } :: s.coinTxs ∧
    (reversalCoinStep rate r i p s).coinWallets =
      incEntry u (-⌊jsNum p.amountVal (jsNum (some i.amount) 0) * rate⌋) s.coinWallets := by
  have hdec : decrement_coin_balance u ⌊jsNum p.amountVal (jsNum (some i.amount) 0) * rate⌋
      s.coinWallets = some
        (getEntry (incEntry u (-⌊jsNum p.amountVal (jsNum (some i.amount) 0) * rate⌋)
          s.coinWallets) u 0,
         incEntry u (-⌊jsNum p.amountVal (jsNum (some i.amount) 0) * rate⌋) s.coinWallets) := by
    simp only [decrement_coin_balance]
    rw [if_neg]
    exact not_lt.mpr hbal
  simp only [reversalCoinStep, hu, hkind, hgate, hdec]
  simp

/-- Reduction of the second-revision webhook handler on a `failed`/`reversed`
report for a previously completed intent: status written, Reversal Handler
invoked. -/
theorem handleWebhook_reversal_eq (rate : Rat) (wd : Payload) (s : LedgerState)
    (r : String) (i : PaymentIntent) (st : String)
    (href : wd.reference = some r) (hwst : wd.status = some st)
    (hstv : st = "failed" ∨ st = "reversed")
    (hfind : findIntent s r = some i) (hst : i.status = "completed") :
    handleWebhook rate { btype := none, payload := wd } none s =
      (.ok none r st,
       handleReversedPayment rate r i wd
         { s with intents := s.intents.map (fun j =>
             if j.reference = r then { j with status := st } else j) }) := by
  rcases hstv with h | h <;> subst h <;>
    simp +decide [handleWebhook, href, hwst, hfind, hst, strStartsWith, lowerStr]

/-- The same report for an intent that is NOT completed: status written,
no reversal. -/
theorem handleWebhook_failed_noop_eq (rate : Rat) (wd : Payload) (s : LedgerState)
    (r : String) (i : PaymentIntent) (st : String)
    (href : wd.reference = some r) (hwst : wd.status = some st)
    (hstv : st = "failed" ∨ st = "reversed")
    (hfind : findIntent s r = some i) (hst : i.status ≠ "completed") :
    handleWebhook rate { btype := none, payload := wd } none s =
      (.ok none r st,
       { s with intents := s.intents.map (fun j =>
           if j.reference = r then { j with status := st } else j) }) := by
  rcases hstv with h | h <;> subst h <;>
    simp +decide [handleWebhook, href, hwst, hfind, hst, strStartsWith, lowerStr]

/-- Redelivering the same `failed`/`reversed` webhook after the first
delivery is a no-op: the intent status is already the reported one, so the
gate `existingIntent.status === 'completed'` no longer fires. -/
theorem handleWebhook_reversal_idem (rate : Rat) (wd : Payload) (s : LedgerState)
    (r : String) (i : PaymentIntent) (st : String)
    (href : wd.reference = some r) (hwst : wd.status = some st)
    (hstv : st = "failed" ∨ st = "reversed")
    (hfind : findIntent s r = some i) (hst : i.status = "completed") :
    (handleWebhook rate { btype := none, payload := wd } none
      (handleWebhook rate { btype := none, payload := wd } none s).2).2 =
      (handleWebhook rate { btype := none, payload := wd } none s).2 := by
  have hne : st ≠ "completed" := by rcases hstv with h | h <;> subst h <;> decide
  have hiRef : i.reference = r := by
    have := List.find?_some hfind
    simpa using this
  set f : PaymentIntent → PaymentIntent :=
    fun j => if j.reference = r then { j with status := st } else j with hf
  have hfRef : ∀ j : PaymentIntent, (f j).reference = j.reference := by
    intro j
    by_cases hj : j.reference = r <;> simp [hf, hj]
  have h1 := handleWebhook_reversal_eq rate wd s r i st href hwst hstv hfind hst
  set t := (handleWebhook rate { btype := none, payload := wd } none s).2 with htDef
  have htIntents : t.intents = s.intents.map f := by
    rw [htDef, h1]
    exact handleReversedPayment_intents ..
  have hfindT : findIntent t r = some (f i) := by
    unfold findIntent
    rw [htIntents, List.find?_map]
    have hpf : (fun j : PaymentIntent => j.reference == r) ∘ f =
        (fun j : PaymentIntent => j.reference == r) := by
      funext j
      simp [Function.comp, hfRef]
    have hfind2 : s.intents.find? (fun j => j.reference == r) = some i := hfind
    rw [hpf, hfind2]
    rfl
  have hfiSt : (f i).status = st := by simp [hf, hiRef]
  have h2 := handleWebhook_failed_noop_eq rate wd t r (f i) st href hwst hstv hfindT
    (by rw [hfiSt]; exact hne)
  rw [h2]
  have hmap : t.intents.map f = t.intents := by
    rw [htIntents, List.map_map]
    refine List.map_congr_left (fun j _ => ?_)
    by_cases hj : j.reference = r <;> simp [hf, Function.comp, hj]
  show { t with intents := t.intents.map f } = t
  rw [hmap]

/-- **C5**: a `failed`/`reversed` webhook for a previously completed coin
top-up inserts exactly one negative `adjustment` row (never a second
deposit) and decrements the balance by the originally credited coin amount
(`d` is the deposit row settlement wrote); redelivering the same webhook
any number of times leaves the state at the post-reversal value.  A
`failed`/`reversed` report for a non-completed intent triggers no reversal
(see `handleWebhook_failed_noop_eq`, whose conclusion only updates the
intent status). -/
theorem C5_reversal_exactly_once (rate : Rat) (r : String) (wd : Payload)
    (s : LedgerState) (i : PaymentIntent) (u : String) (st : String) (d : CoinTx)
    (hfind : findIntent s r = some i) (hst : i.status = "completed")
    (hkind : i.metadata.kind = some "coin_topup")
    (hu : (i.metadata.userId <|> i.userId <|> wd.userId) = some u)
    (hadj : adjustmentTxsFor s r = [])
    (hdep : depositTxsFor s r = [d])
    (hdamt : d.amount = ⌊jsNum wd.amountVal (jsNum (some i.amount) 0) * rate⌋)
    (h0 : 0 ≤ d.amount)
    (hbal : d.amount ≤ coinBalance s u)
    (href : wd.reference = some r) (hwst : wd.status = some st)
    (hstv : st = "failed" ∨ st = "reversed") :
    coinBalance (handleWebhook rate { btype := none, payload := wd } none s).2 u =
      coinBalance s u - d.amount ∧
    adjustmentTxsFor (handleWebhook rate { btype := none, payload := wd } none s).2 r =
      [{ userId := u, amount := -d.amount, txType := "adjustment"
         txStatus := "completed", reference := some r }] ∧
    depositTxsFor (handleWebhook rate { btype := none, payload := wd } none s).2 r =
      depositTxsFor s r ∧
    ∀ n : ℕ,
      (fun x => (handleWebhook rate { btype := none, payload := wd } none x).2)^[n + 1] s =
        (handleWebhook rate { btype := none, payload := wd } none s).2 := by
  have h1 := handleWebhook_reversal_eq rate wd s r i st href hwst hstv hfind hst
  set s1 : LedgerState := { s with intents := s.intents.map (fun j =>
      if j.reference = r then { j with status := st } else j) } with hs1
  have hgate : s1.coinTxs.find?
      (fun t => t.reference == some r && t.txType == "adjustment") = none := by
    rw [List.find?_eq_none]
    intro x hx
    simp only [adjustmentTxsFor, coinTxsFor] at hadj
    exact List.filter_eq_nil_iff.mp hadj x hx
  have hbal1 : ⌊jsNum wd.amountVal (jsNum (some i.amount) 0) * rate⌋ ≤ coinBalance s1 u := by
    rw [← hdamt]
    exact hbal
  have hcoin := reversalCoinStep_applied rate r i wd s1 u hkind hu hgate hbal1
  have habs : |⌊jsNum wd.amountVal (jsNum (some i.amount) 0) * rate⌋| = d.amount := by
    rw [← hdamt]
    exact abs_of_nonneg h0
  have hstate : (handleWebhook rate { btype := none, payload := wd } none s).2 =
      reversalOrderStep r i wd (reversalCoinStep rate r i wd s1) := by
    rw [h1]
    rfl
  have hTxs : (handleWebhook rate { btype := none, payload := wd } none s).2.coinTxs =
      ({ userId := u, amount := -d.amount, txType := "adjustment"
         txStatus := "completed", reference := some r } : CoinTx) :: s.coinTxs := by
    rw [hstate, reversalOrderStep_coinTxs, hcoin.1, habs]
  have hWallets : (handleWebhook rate { btype := none, payload := wd } none s).2.coinWallets =
      incEntry u (-d.amount) s.coinWallets := by
    rw [hstate, reversalOrderStep_coinWallets, hcoin.2, hdamt]
  refine ⟨?_, ?_, ?_, ?_⟩
  · rw [coinBalance, hWallets, getEntry_incEntry]
    simp [coinBalance, sub_eq_add_neg]
  · simp only [adjustmentTxsFor, coinTxsFor] at hadj ⊢
    rw [hTxs, List.filter_cons]
    simp [hadj]
  · simp only [depositTxsFor, coinTxsFor]
    rw [hTxs, List.filter_cons]
    simp
  · intro n
    induction n with
    | zero => rfl
    | succ k ih =>
      rw [Function.iterate_succ_apply', ih]
      exact handleWebhook_reversal_idem rate wd s r i st href hwst hstv hfind hst

theorem C5_reversal_exactly_once_witness :
    coinBalance (handleWebhook 1 reversalBody none sSettled).2 "u1" =
      coinBalance sSettled "u1" - 10000 ∧
    adjustmentTxsFor (handleWebhook 1 reversalBody none sSettled).2 "r1" =
      [{ userId := "u1", amount := -10000, txType := "adjustment"
         txStatus := "completed", reference := some "r1" }] ∧
    depositTxsFor (handleWebhook 1 reversalBody none sSettled).2 "r1" =
      depositTxsFor sSettled "r1" ∧
    (fun x => (handleWebhook 1 reversalBody none x).2)^[3] sSettled =
      (handleWebhook 1 reversalBody none sSettled).2 := by
  have hdamt : (10000 : Int) =
      ⌊jsNum (reversalBody.payload).amountVal
        (jsNum (some ({ topupIntent with status := "completed" } : PaymentIntent).amount) 0) *
        (1 : Rat)⌋ := by
    norm_num [reversalBody, jsNum, topupIntent, topupMeta]
  have h := C5_reversal_exactly_once 1 "r1" reversalBody.payload sSettled
    { topupIntent with status := "completed" } "u1" "reversed"
    { userId := "u1", amount := 10000, txType := "deposit"
      txStatus := "completed", reference := some "r1" }
    (by decide) (by decide) (by decide) (by decide) (by decide) (by decide)
    hdamt (by decide) (by decide) (by decide) (by decide) (Or.inr rfl)
  exact ⟨h.1, h.2.1, h.2.2.1, h.2.2.2 2⟩

/-- **C7**: a withdrawal whose required debit exceeds the available source
balance is rejected with a validation error, with no gateway call and no
state change; and whenever the debit succeeds, the event trace is exactly
`[debitSource, gatewayCall]` — the pessimistic debit strictly precedes the
gateway payout submission.  Stated for both the user payout
(`createWithdrawal`) and the shop payout (`createShopWithdrawal`). -/
theorem C7_withdrawal_guard_and_order :
    (∀ (rate : Rat) (u : String) (amount : Rat) (gw : Option GwPayout)
       (s : LedgerState) (pm : PayoutMethod),
       0 < amount → 0 < rate → 0 < amount - amount * (3 / 100) →
       (s.userPayoutMethods.find? (fun e => e.1 == u)).map Prod.snd = some pm →
       pm.phone ≠ none → pm.fullName ≠ none →
       coinBalance s u < ⌈amount / (75 / 100 : Rat) * rate⌉ →
       createWithdrawal rate u amount gw s = (.error .insufficientBalance, s, [])) ∧
    (∀ (rate : Rat) (u : String) (amount : Rat) (gw : Option GwPayout)
       (s : LedgerState) (pm : PayoutMethod),
       0 < amount → 0 < rate → 0 < amount - amount * (3 / 100) →
       (s.userPayoutMethods.find? (fun e => e.1 == u)).map Prod.snd = some pm →
       pm.phone ≠ none → pm.fullName ≠ none →
       ¬ coinBalance s u < ⌈amount / (75 / 100 : Rat) * rate⌉ →
       (createWithdrawal rate u amount gw s).2.2 = [.debitSource, .gatewayCall]) ∧
    (∀ (u : String) (amount : Rat) (gw : Option GwPayout) (s : LedgerState)
       (shop : Shop) (pm : PayoutMethod),
       ¬ amount < 10000 →
       s.shops.find? (fun sh => sh.userId == some u) = some shop →
       0 < amount - (⌈amount * (10 / 100 : Rat)⌉ : Rat) →
       (s.shopPayoutMethods.find? (fun e => e.1 == shop.id)).map Prod.snd = some pm →
       pm.phone ≠ none → pm.fullName ≠ none →
       ((s.orders.filter (fun o => o.shopId == shop.id && o.status == "delivered")).map
           (fun o => o.totalAmount)).sum -
         ((s.shopWithdrawals.filter (fun wd =>
             wd.shopId == shop.id && wd.status == "completed")).map
           (fun wd => wd.amount)).sum < amount →
       createShopWithdrawal u amount gw s = (.error .insufficientBalance, s, [])) ∧
    (∀ (u : String) (amount : Rat) (gw : Option GwPayout) (s : LedgerState)
       (shop : Shop) (pm : PayoutMethod),
       ¬ amount < 10000 →
       s.shops.find? (fun sh => sh.userId == some u) = some shop →
       0 < amount - (⌈amount * (10 / 100 : Rat)⌉ : Rat) →
       (s.shopPayoutMethods.find? (fun e => e.1 == shop.id)).map Prod.snd = some pm →
       pm.phone ≠ none → pm.fullName ≠ none →
       amount ≤ ((s.orders.filter (fun o =>
             o.shopId == shop.id && o.status == "delivered")).map
           (fun o => o.totalAmount)).sum -
         ((s.shopWithdrawals.filter (fun wd =>
             wd.shopId == shop.id && wd.status == "completed")).map
           (fun wd => wd.amount)).sum →
       (createShopWithdrawal u amount gw s).2.2 = [.debitSource, .gatewayCall]) := by
  refine ⟨?_, ?_, ?_, ?_⟩
  · intro rate u amount gw s pm ha hr hnet hpm hph hnm hins
    have hins2 : getEntry s.coinWallets u 0 < ⌈amount / (75 / 100 : Rat) * rate⌉ := hins
    simp [createWithdrawal, not_le.mpr ha, not_le.mpr hr, not_le.mpr hnet, hpm, hph, hnm,
      decrement_coin_balance, hins2]
  · intro rate u amount gw s pm ha hr hnet hpm hph hnm hsuf
    have hsuf2 : ¬ getEntry s.coinWallets u 0 < ⌈amount / (75 / 100 : Rat) * rate⌉ := hsuf
    cases gw with
    | none =>
      simp [createWithdrawal, not_le.mpr ha, not_le.mpr hr, not_le.mpr hnet, hpm, hph, hnm,
        decrement_coin_balance, hsuf2]
    | some resp =>
      simp [createWithdrawal, not_le.mpr ha, not_le.mpr hr, not_le.mpr hnet, hpm, hph, hnm,
        decrement_coin_balance, hsuf2]
  · intro u amount gw s shop pm hmin hshop hnet hpm hph hnm hins
    simp [createShopWithdrawal, hmin, hshop, not_le.mpr hnet, hpm, hph, hnm, hins]
  · intro u amount gw s shop pm hmin hshop hnet hpm hph hnm havail
    have hnotlt : ¬ ((s.orders.filter (fun o =>
          o.shopId == shop.id && o.status == "delivered")).map
            (fun o => o.totalAmount)).sum -
        ((s.shopWithdrawals.filter (fun wd =>
            wd.shopId == shop.id && wd.status == "completed")).map
          (fun wd => wd.amount)).sum < amount := not_lt.mpr havail
    by_cases hw : getEntry s.shopWallets shop.id 0 < amount
    · -- wallet below the requested amount: top it up to the available balance first
      have htop : 0 < ((s.orders.filter (fun o =>
            o.shopId == shop.id && o.status == "delivered")).map
              (fun o => o.totalAmount)).sum -
          ((s.shopWithdrawals.filter (fun wd =>
              wd.shopId == shop.id && wd.status == "completed")).map
            (fun wd => wd.amount)).sum - getEntry s.shopWallets shop.id 0 := by
        have := not_lt.mp hnotlt
        linarith
      have hafter : ¬ getEntry (increment_shop_balance shop.id
          (((s.orders.filter (fun o => o.shopId == shop.id && o.status == "delivered")).map
              (fun o => o.totalAmount)).sum -
            ((s.shopWithdrawals.filter (fun wd =>
                wd.shopId == shop.id && wd.status == "completed")).map
              (fun wd => wd.amount)).sum - getEntry s.shopWallets shop.id 0)
          s.shopWallets).2 shop.id 0 < amount := by
        rw [shopBalance_increment, if_pos rfl]
        push_neg
        linarith [not_lt.mp hnotlt]
      cases gw with
      | none =>
        simp [createShopWithdrawal, hmin, hshop, not_le.mpr hnet, hpm, hph, hnm, hnotlt,
          hw, htop, decrement_shop_balance, hafter]
      | some resp =>
        simp [createShopWithdrawal, hmin, hshop, not_le.mpr hnet, hpm, hph, hnm, hnotlt,
          hw, htop, decrement_shop_balance, hafter]
    · cases gw with
      | none =>
        simp [createShopWithdrawal, hmin, hshop, not_le.mpr hnet, hpm, hph, hnm, hnotlt,
          hw, decrement_shop_balance]
      | some resp =>
        simp [createShopWithdrawal, hmin, hshop, not_le.mpr hnet, hpm, hph, hnm, hnotlt,
          hw, decrement_shop_balance]

theorem C7_withdrawal_guard_and_order_witness :
    createWithdrawal 1 "u1" 750 (some okPayout) sUserLow =
      (.error .insufficientBalance, sUserLow, []) ∧
    (createWithdrawal 1 "u1" 750 (some okPayout) sUserRich).2.2 =
      [.debitSource, .gatewayCall] ∧
    createShopWithdrawal "u1" 30000 (some okPayout) sShop =
      (.error .insufficientBalance, sShop, []) ∧
    (createShopWithdrawal "u1" 10000 (some okPayout) sShop).2.2 =
      [.debitSource, .gatewayCall] := by
  have hceil : (⌈(750 : Rat) / (75 / 100 : Rat) * 1⌉ : Int) = 1000 := by norm_num
  refine ⟨?_, ?_, ?_, ?_⟩
  · refine C7_withdrawal_guard_and_order.1 1 "u1" 750 (some okPayout) sUserLow
      { phone := some "255700000002", fullName := some "Name" }
      (by norm_num) (by norm_num) (by norm_num) (by decide) (by decide) (by decide) ?_
    rw [hceil]
    decide
  · refine C7_withdrawal_guard_and_order.2.1 1 "u1" 750 (some okPayout) sUserRich
      { phone := some "255700000002", fullName := some "Name" }
      (by norm_num) (by norm_num) (by norm_num) (by decide) (by decide) (by decide) ?_
    rw [hceil]
    decide
  · refine C7_withdrawal_guard_and_order.2.2.1 "u1" 30000 (some okPayout) sShop
      { id := "shop1", userId := some "u1" }
      { phone := some "255700000001", fullName := some "Owner" }
      (by decide) (by decide) ?_ (by decide) (by decide) (by decide) ?_
    · norm_num
    · simp [sShop, emptyState]
      norm_num
  · refine C7_withdrawal_guard_and_order.2.2.2 "u1" 10000 (some okPayout) sShop
      { id := "shop1", userId := some "u1" }
      { phone := some "255700000001", fullName := some "Owner" }
      (by decide) (by decide) ?_ (by decide) (by decide) (by decide) ?_
    · norm_num
    · simp [sShop, emptyState]
      norm_num

/-! ### Ledger-invariant lemmas (C6) -/

/-- The successful shop withdrawal: wallet debited, a `withdrawals` row
recorded — and no `shop_transactions` row. -/
theorem createShopWithdrawal_state (u : String) (amount : Rat) (resp : GwPayout)
    (s : LedgerState) (shop : Shop) (pm : PayoutMethod)
    (hmin : ¬ amount < 10000)
    (hshop : s.shops.find? (fun sh => sh.userId == some u) = some shop)
    (hnet : 0 < amount - (⌈amount * (10 / 100 : Rat)⌉ : Rat))
    (hpm : (s.shopPayoutMethods.find? (fun e => e.1 == shop.id)).map Prod.snd = some pm)
    (hph : pm.phone ≠ none) (hnm : pm.fullName ≠ none)
    (hnotlt : ¬ ((s.orders.filter (fun o =>
          o.shopId == shop.id && o.status == "delivered")).map
            (fun o => o.totalAmount)).sum -
        ((s.shopWithdrawals.filter (fun wd =>
            wd.shopId == shop.id && wd.status == "completed")).map
          (fun wd => wd.amount)).sum < amount)
    (hw : ¬ getEntry s.shopWallets shop.id 0 < amount) :
    createShopWithdrawal u amount (some resp) s =
      (.ok (), { s with
        shopWallets := incEntry shop.id (-amount) s.shopWallets
        shopWithdrawals :=
          { shopId := shop.id, userId := u, amount := amount
            status := (resp.status).getD "pending"
            reference := resp.reference } :: s.shopWithdrawals },
       [.debitSource, .gatewayCall]) := by
  simp [createShopWithdrawal, hmin, hshop, not_le.mpr hnet, hpm, hph, hnm, hnotlt, hw,
    decrement_shop_balance]

/-- **C6 counterexample**: the shop-wallet invariant (balance = signed sum
of shop transactions) holds on the fixture but is broken by a successful
shop withdrawal, which debits the wallet without writing any shop
transaction row (it records in the `withdrawals` table instead). -/
theorem C6_counterexample :
    shopInvariant sShop ∧
    shopBalance (createShopWithdrawal "u1" 10000 (some okPayout) sShop).2.1 "shop1" ≠
      shopTxSum (createShopWithdrawal "u1" 10000 (some okPayout) sShop).2.1 "shop1" := by
  have hstate := createShopWithdrawal_state "u1" 10000 okPayout sShop
    { id := "shop1", userId := some "u1" }
    { phone := some "255700000001", fullName := some "Owner" }
    (by decide) (by decide) (by norm_num) (by decide) (by decide) (by decide)
    (by simp [sShop, emptyState]; norm_num) (by decide)
  constructor
  · intro sid
    by_cases h : sid = "shop1"
    · subst h
      simp [shopBalance, shopTxSum, sShop, emptyState, getEntry]
    · have h2 : ¬ ("shop1" = sid) := fun hh => h hh.symm
      simp [shopBalance, shopTxSum, sShop, emptyState, getEntry, h, h2]
  · rw [hstate]
    have hbal : shopBalance ({ sShop with
        shopWallets := incEntry "shop1" (-(10000 : Rat)) sShop.shopWallets
        shopWithdrawals :=
          { shopId := "shop1", userId := "u1", amount := (10000 : Rat)
            status := (okPayout.status).getD "pending"
            reference := okPayout.reference } :: sShop.shopWithdrawals } : LedgerState)
        "shop1" = 20000 + (-10000 : Rat) := by
      simp only [shopBalance]
      rw [getEntry_incEntry]
      simp [sShop, emptyState, getEntry]
    have hsum : shopTxSum ({ sShop with
        shopWallets := incEntry "shop1" (-(10000 : Rat)) sShop.shopWallets
        shopWithdrawals :=
          { shopId := "shop1", userId := "u1", amount := (10000 : Rat)
            status := (okPayout.status).getD "pending"
            reference := okPayout.reference } :: sShop.shopWithdrawals } : LedgerState)
        "shop1" = 20000 := by
      simp [shopTxSum, sShop, emptyState]
    rw [hbal, hsum]
    norm_num

@[simp] theorem increment_coin_balance_snd (u : String) (amt : Int)
    (w : List (String × Int)) :
    (increment_coin_balance u amt w).2 = incEntry u amt w := rfl

@[simp] theorem increment_shop_balance_snd (sid : String) (amt : Rat)
    (w : List (String × Rat)) :
    (increment_shop_balance sid amt w).2 = incEntry sid amt w := rfl

/-- Frame rule for the coin-wallet invariant. -/
theorem coinInv_frame (s s2 : LedgerState)
    (hw : s2.coinWallets = s.coinWallets) (ht : s2.coinTxs = s.coinTxs)
    (hinv : coinInvariant s) : coinInvariant s2 := by
  intro x
  simp only [coinBalance, coinTxSum, hw, ht]
  exact hinv x

/-- A matched balance-increment/row-insert pair preserves the coin-wallet
invariant. -/
theorem coinInv_cons (s s2 : LedgerState) (tx : CoinTx)
    (hw : s2.coinWallets = incEntry tx.userId tx.amount s.coinWallets)
    (ht : s2.coinTxs = tx :: s.coinTxs)
    (hinv : coinInvariant s) : coinInvariant s2 := by
  intro x
  simp only [coinBalance, coinTxSum, hw, ht]
  rw [getEntry_incEntry, List.filter_cons]
  have hx := hinv x
  simp only [coinBalance, coinTxSum] at hx
  by_cases h : x = tx.userId
  · have hb : (tx.userId == x) = true := by simp [h]
    rw [if_pos h]
    simp only [hb, if_true, List.map_cons, List.sum_cons]
    rw [hx]
    exact add_comm _ _
  · have hb : (tx.userId == x) = false := by
      simp only [beq_eq_false_iff_ne, ne_eq]
      exact fun hh => h hh.symm
    rw [if_neg h]
    simp only [hb, Bool.false_eq_true, if_false, add_zero]
    exact hx

/-- Rewriting transaction rows without changing user or amount preserves the
coin-wallet invariant. -/
theorem coinInv_mapTx (s s2 : LedgerState) (f : CoinTx → CoinTx)
    (hw : s2.coinWallets = s.coinWallets) (ht : s2.coinTxs = s.coinTxs.map f)
    (huid : ∀ t, (f t).userId = t.userId) (hamt : ∀ t, (f t).amount = t.amount)
    (hinv : coinInvariant s) : coinInvariant s2 := by
  intro x
  simp only [coinBalance, coinTxSum, hw, ht]
  rw [List.filter_map]
  have hp : (fun t : CoinTx => t.userId == x) ∘ f = fun t => t.userId == x := by
    funext t
    simp [Function.comp, huid]
  rw [hp, List.map_map]
  have ha : (fun t : CoinTx => t.amount) ∘ f = fun t => t.amount := by
    funext t
    simp [Function.comp, hamt]
  rw [ha]
  exact hinv x

/-- Frame rule for the shop-wallet invariant. -/
theorem shopInv_frame (s s2 : LedgerState)
    (hw : s2.shopWallets = s.shopWallets) (ht : s2.shopTxs = s.shopTxs)
    (hinv : shopInvariant s) : shopInvariant s2 := by
  intro x
  simp only [shopBalance, shopTxSum, hw, ht]
  exact hinv x

/-- A matched shop-balance-increment/row-insert pair preserves the
shop-wallet invariant. -/
theorem shopInv_cons (s s2 : LedgerState) (tx : ShopTx)
    (hw : s2.shopWallets = incEntry tx.shopId tx.amount s.shopWallets)
    (ht : s2.shopTxs = tx :: s.shopTxs)
    (hinv : shopInvariant s) : shopInvariant s2 := by
  intro x
  simp only [shopBalance, shopTxSum, hw, ht]
  rw [getEntry_incEntry, List.filter_cons]
  have hx := hinv x
  simp only [shopBalance, shopTxSum] at hx
  by_cases h : x = tx.shopId
  · have hb : (tx.shopId == x) = true := by simp [h]
    rw [if_pos h]
    simp only [hb, if_true, List.map_cons, List.sum_cons]
    rw [hx]
    exact add_comm _ _
  · have hb : (tx.shopId == x) = false := by
      simp only [beq_eq_false_iff_ne, ne_eq]
      exact fun hh => h hh.symm
    rw [if_neg h]
    simp only [hb, Bool.false_eq_true, if_false, add_zero]
    exact hx

theorem settleCore_coinInv (rate : Rat) (r : String) (p : Payload) (fi : FinalIntent)
    (u : String) (s : LedgerState) (hinv : coinInvariant s) :
    coinInvariant (settleCore rate r p fi u s) := by
  simp only [settleCore]
  generalize hs2def : (if (fi.metadata.kind == some "shop_order" || fi.metadata.orderId.isSome) = true
      then creditShopWalletForOrder fi.metadata.orderId r
        (jsNum (some fi.amount) (jsNum p.amountVal 0)) (orderPaidStep fi.metadata s)
      else orderPaidStep fi.metadata s) = s2
  have hs2w : s2.coinWallets = s.coinWallets := by
    rw [← hs2def]; split <;> simp
  have hs2t : s2.coinTxs = s.coinTxs := by
    rw [← hs2def]; split <;> simp
  have hinv2 : coinInvariant s2 := coinInv_frame s s2 hs2w hs2t hinv
  by_cases hk : (fi.metadata.kind == some "coin_topup") = true
  · simp only [hk, if_true, coinTopupStep]
    split
    · exact hinv2
    · exact coinInv_cons s2 _
        { userId := u, amount := ⌊settleAmount p fi * rate⌋, txType := "deposit"
          txStatus := "completed", reference := some r } (by simp) rfl hinv2
  · simp only [hk, Bool.false_eq_true, if_false]
    exact hinv2

theorem settleCore_shopInv (rate : Rat) (r : String) (p : Payload) (fi : FinalIntent)
    (u : String) (s : LedgerState) (hinv : shopInvariant s) :
    shopInvariant (settleCore rate r p fi u s) := by
  simp only [settleCore]
  generalize hs2def : (if (fi.metadata.kind == some "shop_order" || fi.metadata.orderId.isSome) = true
      then creditShopWalletForOrder fi.metadata.orderId r
        (jsNum (some fi.amount) (jsNum p.amountVal 0)) (orderPaidStep fi.metadata s)
      else orderPaidStep fi.metadata s) = s2
  have hinv1 : shopInvariant (orderPaidStep fi.metadata s) :=
    shopInv_frame s _ (orderPaidStep_shopWallets ..) (orderPaidStep_shopTxs ..) hinv
  have hinv2 : shopInvariant s2 := by
    rw [← hs2def]
    split
    · unfold creditShopWalletForOrder
      rcases hdec : shopCreditDecision fi.metadata.orderId r
          (jsNum (some fi.amount) (jsNum p.amountVal 0))
          (orderPaidStep fi.metadata s).shopTxs (orderPaidStep fi.metadata s).orders
          (orderPaidStep fi.metadata s).shops with _ | ⟨sid, o, amt⟩
      · exact hinv1
      · exact shopInv_cons (orderPaidStep fi.metadata s) _
          { shopId := sid, orderId := some o, amount := amt, txType := "sale"
            txStatus := "completed", reference := some r } (by simp) rfl hinv1
    · exact hinv1
  by_cases hk : (fi.metadata.kind == some "coin_topup") = true
  · simp only [hk, if_true]
    exact shopInv_frame s2 _ (coinTopupStep_shopWallets ..) (coinTopupStep_shopTxs ..) hinv2
  · simp only [hk, Bool.false_eq_true, if_false]
    exact hinv2

theorem settle_coinInv (rate : Rat) (r : String) (p : Payload) (s : LedgerState)
    (hinv : coinInvariant s) : coinInvariant (handleCompletedPayment rate r p s) := by
  rw [handleCompletedPayment_eq]
  cases h : effUser (finalIntentFor (findIntent s r) p) p with
  | none => simpa [h] using hinv
  | some u =>
    simp only [h]
    exact settleCore_coinInv rate r p _ u s hinv

theorem settle_shopInv (rate : Rat) (r : String) (p : Payload) (s : LedgerState)
    (hinv : shopInvariant s) : shopInvariant (handleCompletedPayment rate r p s) := by
  rw [handleCompletedPayment_eq]
  cases h : effUser (finalIntentFor (findIntent s r) p) p with
  | none => simpa [h] using hinv
  | some u =>
    simp only [h]
    exact settleCore_shopInv rate r p _ u s hinv

theorem gift_coinInv (sender receiver : String) (c : Int) (s : LedgerState)
    (h0 : 0 ≤ c) (hinv : coinInvariant s) :
    coinInvariant (sendGift sender receiver c s).2 := by
  simp only [sendGift]
  by_cases hself : sender = receiver
  · simp only [hself, if_pos rfl]
    exact hinv
  · rw [if_neg hself]
    by_cases hlt : getEntry s.coinWallets sender 0 < c
    · simp only [decrement_coin_balance, hlt, if_pos, if_true]
      exact hinv
    · simp only [decrement_coin_balance, if_neg hlt]
      have habs : |c| = c := abs_of_nonneg h0
      refine coinInv_cons
        ({ s with coinWallets := incEntry sender (-c) s.coinWallets
                  coinTxs := { userId := sender, amount := -|c|, txType := "gift"
                               txStatus := "completed", reference := none } :: s.coinTxs }) _
        { userId := receiver, amount := |c|, txType := "gift"
          txStatus := "completed", reference := none } ?_ rfl ?_
      · simp [habs]
      · exact coinInv_cons s _
          { userId := sender, amount := -|c|, txType := "gift"
            txStatus := "completed", reference := none } (by simp [habs]) rfl hinv

theorem withdrawal_coinInv (rate : Rat) (u : String) (amount : Rat) (resp : GwPayout)
    (s : LedgerState) (hinv : coinInvariant s) :
    coinInvariant (createWithdrawal rate u amount (some resp) s).2.1 := by
  by_cases h1 : amount ≤ 0
  · simpa [createWithdrawal, h1] using hinv
  by_cases h2 : rate ≤ 0
  · simpa [createWithdrawal, h1, h2] using hinv
  by_cases h3 : amount - amount * (3 / 100) ≤ 0
  · simpa [createWithdrawal, h1, h2, h3] using hinv
  cases hpm : (s.userPayoutMethods.find? (fun e => e.1 == u)).map Prod.snd with
  | none => simpa [createWithdrawal, h1, h2, h3, hpm] using hinv
  | some pm =>
    by_cases h4 : pm.phone = none ∨ pm.fullName = none
    · simpa [createWithdrawal, h1, h2, h3, hpm, h4] using hinv
    · have hcoins : (0 : Int) ≤ ⌈amount / (75 / 100 : Rat) * rate⌉ := by
        apply Int.ceil_nonneg
        have ha : 0 < amount := not_le.mp h1
        have hr : 0 < rate := not_le.mp h2
        have : (0 : Rat) < amount / (75 / 100 : Rat) := div_pos ha (by norm_num)
        exact le_of_lt (mul_pos this hr)
      have habs : |⌈amount / (75 / 100 : Rat) * rate⌉| =
          ⌈amount / (75 / 100 : Rat) * rate⌉ := abs_of_nonneg hcoins
      by_cases h5 : getEntry s.coinWallets u 0 < ⌈amount / (75 / 100 : Rat) * rate⌉
      · simpa [createWithdrawal, h1, h2, h3, hpm, h4, decrement_coin_balance, h5] using hinv
      · have hw' : (createWithdrawal rate u amount (some resp) s).2.1.coinWallets =
            incEntry u (-⌈amount / (75 / 100 : Rat) * rate⌉) s.coinWallets := by
          simp [createWithdrawal, h1, h2, h3, hpm, h4, decrement_coin_balance, h5]
        have ht' : (createWithdrawal rate u amount (some resp) s).2.1.coinTxs =
            ({ userId := u, amount := -⌈amount / (75 / 100 : Rat) * rate⌉
               txType := "withdraw", txStatus := (resp.status).getD "pending"
               reference := resp.reference } : CoinTx) :: s.coinTxs := by
          simp [createWithdrawal, h1, h2, h3, hpm, h4, decrement_coin_balance, h5, habs]
        exact coinInv_cons s _
          { userId := u, amount := -⌈amount / (75 / 100 : Rat) * rate⌉
            txType := "withdraw", txStatus := (resp.status).getD "pending"
            reference := resp.reference } hw' ht' hinv

theorem reversal_coinInv (rate : Rat) (r : String) (i : PaymentIntent) (p : Payload)
    (s : LedgerState)
    (hc : ∀ u, (i.metadata.userId <|> i.userId <|> p.userId) = some u →
       0 ≤ ⌊jsNum p.amountVal (jsNum (some i.amount) 0) * rate⌋ ∧
       ⌊jsNum p.amountVal (jsNum (some i.amount) 0) * rate⌋ ≤ coinBalance s u)
    (hinv : coinInvariant s) :
    coinInvariant (handleReversedPayment rate r i p s) := by
  unfold handleReversedPayment
  apply coinInv_frame (reversalCoinStep rate r i p s) _
    (reversalOrderStep_coinWallets ..) (reversalOrderStep_coinTxs ..)
  simp only [reversalCoinStep]
  cases hu : i.metadata.userId <|> i.userId <|> p.userId with
  | none => exact hinv
  | some u =>
    by_cases hk : (i.metadata.kind == some "coin_topup") = true
    · simp only [hk, if_true]
      by_cases hg : (s.coinTxs.find? (fun t =>
          t.reference == some r && t.txType == "adjustment")).isSome = true
      · simp only [hg, if_true]
        exact hinv
      · obtain ⟨h0, hbal⟩ := hc u hu
        have hdec : decrement_coin_balance u
            ⌊jsNum p.amountVal (jsNum (some i.amount) 0) * rate⌋ s.coinWallets =
            some (getEntry (incEntry u
                (-⌊jsNum p.amountVal (jsNum (some i.amount) 0) * rate⌋) s.coinWallets) u 0,
              incEntry u (-⌊jsNum p.amountVal (jsNum (some i.amount) 0) * rate⌋)
                s.coinWallets) := by
          simp only [decrement_coin_balance]
          rw [if_neg]
          exact not_lt.mpr hbal
        simp only [hg, Bool.false_eq_true, if_false, hdec]
        exact coinInv_cons s _
          { userId := u, amount := -|⌊jsNum p.amountVal (jsNum (some i.amount) 0) * rate⌋|
            txType := "adjustment", txStatus := "completed", reference := some r }
          (by simp [abs_of_nonneg h0]) rfl hinv
    · simp only [hk, Bool.false_eq_true, if_false]
      exact hinv

theorem syncShop_coin_frame (r st : String) (s : LedgerState) :
    (syncShopPayoutStep r st s).coinWallets = s.coinWallets ∧
    (syncShopPayoutStep r st s).coinTxs = s.coinTxs ∧
    (syncShopPayoutStep r st s).withdrawalReqs = s.withdrawalReqs := by
  simp only [syncShopPayoutStep]
  split
  · exact ⟨rfl, rfl, rfl⟩
  · split <;> exact ⟨rfl, rfl, rfl⟩

theorem syncUser_coinInv (r st : String) (s1 : LedgerState)
    (hamt : ∀ w ∈ s1.withdrawalReqs, 0 ≤ w.amount)
    (hinv1 : coinInvariant s1) :
    coinInvariant (syncUserPayoutStep r st s1) := by
  have hinvMid : coinInvariant ({ s1 with
      withdrawalReqs := s1.withdrawalReqs.map (fun (w : WithdrawalRequest) =>
        if w.reference == some r then { w with status := st } else w)
      coinTxs := s1.coinTxs.map (fun (t : CoinTx) =>
        if t.reference == some r && t.txType == "withdraw"
        then { t with txStatus := st } else t) } : LedgerState) := by
    refine coinInv_mapTx s1 _ (fun (t : CoinTx) =>
      if t.reference == some r && t.txType == "withdraw"
      then { t with txStatus := st } else t) rfl rfl ?_ ?_ hinv1
    · intro t
      show (if (t.reference == some r && t.txType == "withdraw") = true
        then ({ t with txStatus := st } : CoinTx) else t).userId = t.userId
      split <;> rfl
    · intro t
      show (if (t.reference == some r && t.txType == "withdraw") = true
        then ({ t with txStatus := st } : CoinTx) else t).amount = t.amount
      split <;> rfl
  simp only [syncUserPayoutStep]
  split
  · exact hinv1
  · rename_i wr hfw
    by_cases hcond : st = "failed" ∧ wr.amount ≠ 0
    · have h0 : 0 ≤ wr.amount := hamt wr (List.mem_of_find?_eq_some hfw)
      have habs : |wr.amount| = wr.amount := abs_of_nonneg h0
      rw [if_pos hcond]
      refine coinInv_cons _ _
        { userId := wr.userId, amount := |wr.amount|, txType := "adjustment"
          txStatus := "completed", reference := some r } ?_ rfl hinvMid
      simp [habs]
    · rw [if_neg hcond]
      exact hinvMid

theorem syncPayout_coinInv (r st : String) (s : LedgerState)
    (hamt : ∀ w ∈ s.withdrawalReqs, 0 ≤ w.amount)
    (hinv : coinInvariant s) :
    coinInvariant (syncPayoutStatusInDb r st s) := by
  show coinInvariant (syncUserPayoutStep r st (syncShopPayoutStep r st s))
  obtain ⟨hw, ht, hr⟩ := syncShop_coin_frame r st s
  refine syncUser_coinInv r st _ ?_ (coinInv_frame s _ hw ht hinv)
  rw [hr]
  exact hamt

/-- **C6 (amended)**: each individual ledger operation changes the wallet
balance and the transaction log by equal amounts — it preserves the
invariant that every user's (resp. shop's) stored balance equals the signed
sum of that user's (resp. shop's) transaction rows.  Covered operations:
deposit/sale settlement (`handleCompletedPayment`, both the coin and the
shop ledger), gift transfer (`sendGift`, for a non-negative gift cost),
user withdrawal creation (`createWithdrawal`, gateway reachable), reversal
adjustment (`handleReversedPayment`, when the reversed coin amount is
non-negative and covered by the user's balance, as it is for a balance that
still holds the original credit), and failed-payout restore
(`syncPayoutStatusInDb`, for non-negative payout rows).  The claim's
unrestricted "every operation" form is refuted by `createShopWithdrawal`,
which debits the shop balance without writing any shop transaction row
(see the counterexample). -/
theorem C6_amended_per_op_invariants :
    (∀ (rate : Rat) (r : String) (p : Payload) (s : LedgerState),
      coinInvariant s → coinInvariant (handleCompletedPayment rate r p s)) ∧
    (∀ (rate : Rat) (r : String) (p : Payload) (s : LedgerState),
      shopInvariant s → shopInvariant (handleCompletedPayment rate r p s)) ∧
    (∀ (sender receiver : String) (c : Int) (s : LedgerState),
      0 ≤ c → coinInvariant s → coinInvariant (sendGift sender receiver c s).2) ∧
    (∀ (rate : Rat) (u : String) (amount : Rat) (resp : GwPayout) (s : LedgerState),
      coinInvariant s → coinInvariant (createWithdrawal rate u amount (some resp) s).2.1) ∧
    (∀ (rate : Rat) (r : String) (i : PaymentIntent) (p : Payload) (s : LedgerState),
      (∀ u, (i.metadata.userId <|> i.userId <|> p.userId) = some u →
        0 ≤ ⌊jsNum p.amountVal (jsNum (some i.amount) 0) * rate⌋ ∧
        ⌊jsNum p.amountVal (jsNum (some i.amount) 0) * rate⌋ ≤ coinBalance s u) →
      coinInvariant s → coinInvariant (handleReversedPayment rate r i p s)) ∧
    (∀ (r st : String) (s : LedgerState),
      (∀ w ∈ s.withdrawalReqs, 0 ≤ w.amount) →
      coinInvariant s → coinInvariant (syncPayoutStatusInDb r st s)) :=
  ⟨settle_coinInv, settle_shopInv, gift_coinInv, withdrawal_coinInv,
   reversal_coinInv, syncPayout_coinInv⟩

/-- Witness: all six conjuncts of the amended C6 theorem applied at concrete
states, with every hypothesis discharged. -/
theorem C6_amended_per_op_invariants_witness :
    coinInvariant (handleCompletedPayment 1 "r1" payTopup sTopup) ∧
    shopInvariant (handleCompletedPayment 1 "r1" payTopup sTopup) ∧
    coinInvariant (sendGift "alice" "bob" 5 emptyState).2 ∧
    coinInvariant (createWithdrawal 1 "u1" 1000 (some okPayout) emptyState).2.1 ∧
    coinInvariant (handleReversedPayment 0 "r1" topupIntent payTopup emptyState) ∧
    coinInvariant (syncPayoutStatusInDb "p1" "failed" emptyState) :=
  ⟨C6_amended_per_op_invariants.1 1 "r1" payTopup sTopup (fun _ => rfl),
   C6_amended_per_op_invariants.2.1 1 "r1" payTopup sTopup (fun _ => rfl),
   C6_amended_per_op_invariants.2.2.1 "alice" "bob" 5 emptyState (by decide) (fun _ => rfl),
   C6_amended_per_op_invariants.2.2.2.1 1 "u1" 1000 okPayout emptyState (fun _ => rfl),
   C6_amended_per_op_invariants.2.2.2.2.1 0 "r1" topupIntent payTopup emptyState
     (fun u _ => by constructor <;> simp [coinBalance, emptyState, getEntry])
     (fun _ => rfl),
   C6_amended_per_op_invariants.2.2.2.2.2 "p1" "failed" emptyState
     (fun w hw => absurd hw (List.not_mem_nil w)) (fun _ => rfl)⟩

end Payments
